import Mathlib

/-!
Verification development for the `scaffold.py` project generator
(fabianfalon/fastapi-ddd-scaffolder).

The program is a one-shot CLI tool: `scaffold(project_path, project_name,
force)` builds a directory tree rooted at `project_path / project_name`,
creating a declared list of directories (each with an `__init__.py` marker)
and writing a fixed catalog of files, some parameterized by the project
name.

Shallow embedding choices:
* A filesystem path is a list of segments (`Path := List String`).
  `pathlib`'s `/` operator drops empty components, modelled by `joinName`.
* The filesystem is a finite map from paths to file contents plus a set of
  existing directories, both as lists (`FS`).  `Path.exists()` is
  `FS.pathExists` (file or directory); `any(root.iterdir())` is
  `FS.dirNonEmpty` (has a strict descendant).
* Python exceptions propagate and abort the run, while filesystem mutations
  made before the exception persist.  Each statement of the source is a
  step `FS → FS × Option RunError`; `runSteps` sequences them and stops at
  the first error, returning the partially mutated filesystem.  `sys.exit(1)`
  from the root guard is `RunError.destinationNotEmpty`; an unhandled
  `OSError` (e.g. `write_text` on a path that is a directory, `mkdir` across
  an existing file) is `RunError.ioError`.
-/

set_option maxRecDepth 40000

namespace Scaffolder

/-- A filesystem path, as a list of segments. -/
abbrev Path := List String

/-- `pathlib.Path / name`: empty components are dropped. -/
def joinName (p : Path) (s : String) : Path :=
  if s = "" then p else p ++ [s]

/-- The filesystem: files (path with contents) and existing directories. -/
structure FS where
  files : List (Path × String)
  dirs : List Path
deriving DecidableEq, Repr

/-- The empty filesystem. -/
def FS.empty : FS := ⟨[], []⟩

/-- Contents of the file at `p`, if a file exists there. -/
def FS.lookupFile (fs : FS) (p : Path) : Option String :=
  (fs.files.find? (fun e => e.1 == p)).map (fun e => e.2)

/-- Is there a file at `p`? -/
def FS.isFile (fs : FS) (p : Path) : Bool :=
  (fs.lookupFile p).isSome

/-- Is there a directory at `p`?  The empty path (the current directory)
always exists. -/
def FS.isDir (fs : FS) (p : Path) : Bool :=
  p.isEmpty || fs.dirs.contains p

/-- `Path.exists()`: a file or directory is present at `p`. -/
def FS.pathExists (fs : FS) (p : Path) : Bool :=
  fs.isFile p || fs.isDir p

/-- Create or replace the file at `p` with contents `c`. -/
def FS.setFile (fs : FS) (p : Path) (c : String) : FS :=
  { fs with files := (p, c) :: fs.files.filter (fun e => !(e.1 == p)) }

/-- All nonempty prefixes of a path: the chain of directories that
`mkdir(parents=True)` creates. -/
def pathPrefixes : Path → List Path
  | [] => []
  | a :: rest => [a] :: (pathPrefixes rest).map (fun q => a :: q)

/-- `p.mkdir(parents=True, exist_ok=True)` succeeds iff no file occupies
`p` or one of its ancestors. -/
def FS.mkdirOk (fs : FS) (p : Path) : Bool :=
  (pathPrefixes p).all (fun q => !(fs.isFile q))

/-- Effect of `p.mkdir(parents=True, exist_ok=True)`: `p` and all its
ancestors become directories. -/
def FS.mkdirAll (fs : FS) (p : Path) : FS :=
  { fs with dirs := pathPrefixes p ++ fs.dirs }

/-- `path.write_text(..)` succeeds iff `path` is not a directory and its
parent directory exists. -/
def FS.writeTextOk (fs : FS) (p : Path) : Bool :=
  !(fs.isDir p) && fs.isDir p.dropLast

/-- Is `q` a strict descendant of `root`?  `any(root.iterdir())` is
modelled as the existence of a strict descendant entry. -/
def isStrictUnder (root q : Path) : Bool :=
  root.isPrefixOf q && decide (root.length < q.length)

/-- Does the directory `root` contain at least one entry? -/
def FS.dirNonEmpty (fs : FS) (root : Path) : Bool :=
  fs.files.any (fun e => isStrictUnder root e.1) ||
    fs.dirs.any (fun d => isStrictUnder root d)

/-- Nothing at all (file or directory) lies strictly under `root`:
a fresh destination. -/
def FS.cleanUnder (fs : FS) (root : Path) : Bool :=
  fs.files.all (fun e => !(isStrictUnder root e.1)) &&
    fs.dirs.all (fun d => !(isStrictUnder root d))

/-- How a run ends early: the root guard's `sys.exit(1)`, or an unhandled
I/O exception. -/
inductive RunError where
  | destinationNotEmpty
  | ioError
deriving DecidableEq, Repr

/-- One statement of the source program: it mutates the filesystem and
either finishes or raises. -/
abbrev Step := FS → FS × Option RunError

/-- Run statements in order; an error aborts the rest but keeps the
mutations made so far (Python exception semantics). -/
def runSteps : List Step → FS → FS × Option RunError
  | [], fs => (fs, none)
  | s :: rest, fs =>
    match s fs with
    | (fs1, none) => runSteps rest fs1
    | (fs1, some e) => (fs1, some e)

/-- `write_file` (scaffold.py lines 9-13): make the parent directories,
skip when the target exists and `force` is not set, otherwise write. -/
def write_file (fs : FS) (path : Path) (content : String) (force : Bool) :
    FS × Option RunError :=
  if fs.mkdirOk path.dropLast then
    if (fs.mkdirAll path.dropLast).pathExists path && !force then
      (fs.mkdirAll path.dropLast, none)
    else if (fs.mkdirAll path.dropLast).writeTextOk path then
      ((fs.mkdirAll path.dropLast).setFile path content, none)
    else (fs.mkdirAll path.dropLast, some RunError.ioError)
  else (fs, some RunError.ioError)

/-- Contents written for every directory marker. -/
def initContent : String := "# Auto-generated __init__.py\n"

/-- File name of a directory marker. -/
def initName : String := "__init__.py"

/-- `write_init` (scaffold.py lines 16-20): ensure `__init__.py` exists in
a directory, rewriting only when `force` is set. -/
def write_init (fs : FS) (d : Path) (force : Bool) : FS × Option RunError :=
  let initFile := d ++ [initName]
  if !(fs.pathExists initFile) || force then
    if fs.writeTextOk initFile then (fs.setFile initFile initContent, none)
    else (fs, some RunError.ioError)
  else (fs, none)

/-!
Render functions (scaffold.py lines 24-303).  Each is the Python function's
return value after `textwrap.dedent` and `lstrip` have been applied; they
are pure functions of at most the project name.  Braces that are literal
text are written with `\x7b`/`\x7d` escapes.
-/

/-- `make_pyproject` (lines 24-40). -/
def make_pyproject (project_name : String) : String :=
  "[project]\nname = \"" ++ project_name ++
  "\"\nversion = \"0.1.0\"\ndescription = \"DDD FastAPI service\"\nrequires-python = \">=3.11\"\ndependencies = [\n  \"fastapi[all]>=0.116.1\",\n  \"pydantic>=2.3.0\",\n  \"python-dotenv\",\n]\n\n[tool.pytest.ini_options]\naddopts = \"-q\"\ntestpaths = [\"tests\"]\n"

/-- `make_requirements` (lines 43-48). -/
def make_requirements : String :=
  "fastapi[all]==0.116.1\npydantic>=2.3.0\npython-dotenv\n"

/-- `make_importlinter` (lines 51-68). -/
def make_importlinter : String :=
  "[importlinter]\nroot_package = src\n\n[importlinter:contract:layered-architecture]\nname = Layered architecture\ntype = layers\nlayers =\n    src.api\n    src.infrastructure\n    src.application\n    src.domain\nrules =\n    src.api -> src.infrastructure\n    src.infrastructure -> src.application\n    src.application -> src.domain\n"

/-- `make_dockerfile` (lines 71-84); the backslash-newline in the Python
string literal is a line continuation, leaving the continuation line's
indentation inside the RUN command. -/
def make_dockerfile : String :=
  "# syntax=docker/dockerfile:1.4\nFROM python:3.12-slim AS base\nWORKDIR /app\nCOPY requirements.txt .\nRUN --mount=type=cache,target=/root/.cache/pip         pip install --upgrade pip && pip install -r requirements.txt\n\nFROM base AS final\nCOPY . .\nEXPOSE 8000\nCMD [\"uvicorn\", \"src.main:app\", \"--host\", \"0.0.0.0\", \"--port\", \"8000\"]\n"

/-- `make_compose` (lines 87-102). -/
def make_compose (project_name : String) : String :=
  "services:\n  app:\n    build:\n      context: ../\n      dockerfile: Dockerfile\n    container_name: " ++ project_name ++
  "-app\n    ports:\n      - \"8000:8000\"\n    volumes:\n      - ../:/app\n    env_file:\n      - ../.env\n    command: uvicorn src.main:app --host 0.0.0.0 --port 8000 --reload\n"

/-- `make_makefile` (lines 105-139). -/
def make_makefile : String :=
  ".PHONY: run test test-cov lint format precommit-install up down shell sec contracts clean-pyc\n\nCOMPOSE_DEV = docker compose -f infra/docker-compose.yml\n\nrun:\n\tuvicorn src.main:app --host 0.0.0.0 --port 8000 --reload\n\ntest:\n\tPYTHONPATH=. pytest -q\n\ntest-cov:\n\tPYTHONPATH=. pytest --cov=src --cov-report=term-missing\n\nlint:\n\truff check --config=ruff.toml src/ --fix\n\nformat:\n\truff check --config=pyproject.toml src --fix --select I --exclude \"migrations\"\n\truff format src\n\nprecommit-install:\n\tpython -m pip install pre-commit && pre-commit install\n\nbuild:\n\t$(COMPOSE_DEV) build --no-cache\n\nup:\n\t$(COMPOSE_DEV) up\n\ndown:\n\t$(COMPOSE_DEV) down\n\nshell:\n\t$(COMPOSE_DEV) exec -it app bash\n\nsec:\n\tbandit -r src && \\\n\tpip-audit -r requirements-tests.txt\n\ncontracts:\n\tlint-imports\n\nclean-pyc:\n\tfind . -type d -name \"__pycache__\" -exec rm -rf \x7b\x7d +\n\tfind . -type f -name \"*.pyc\" -delete\n\tfind . -type f -name \"*.pyo\" -delete\n"

/-- `make_gitignore` (lines 142-154). -/
def make_gitignore : String :=
  "__pycache__/\n*.pyc\n.env\n.venv/\n.env.local\n.cache/\nhtmlcov/\ncoverage.xml\n.idea/\n.vscode/\n"

/-- `make_pytest_ini` (lines 157-164); the `testpaths` line has a trailing
space in the source. -/
def make_pytest_ini : String :=
  "[pytest]\naddopts = -ra -q\npython_files = test_*.py\npython_classes = Test*\ntestpaths = tests \n"

/-- `make_ruff_toml` (lines 167-197). -/
def make_ruff_toml : String :=
  "line-length = 120\n\n[lint]\nselect = [\n    \"ANN001\", # missing-type-function-argument\n    \"ANN002\", # missing-type-args\n    \"ANN003\", # missing-type-kwargs\n    \"ANN201\", # missing-return-type-undocumented-public-function\n    \"ANN202\", # missing-return-type-private-function\n    \"ANN205\", # missing-return-type-static-method\n    \"ANN206\", # missing-return-type-class-method\n    \"ANN401\", # any_type\n    \"B904\",   # raise-without-from-inside-except\n    \"RSE102\", # Unnecessary parentheses on raised exception\n    \"T20\",    # print_found\n    \"TRY002\", # raise-vanilla-class\n    \"C4\",     # flake8-comprehensions\n    \"E\",      # pycodestyle errors\n    \"F\",      # pyflakes\n    \"I\",      # isort\n    \"ICN\",    # flake8-import-conventions\n    \"ISC\",    # flake8-str-concat\n    \"RET\",    # flake8-return\n    \"RUF\",    # ruff\n    \"SIM\",    # common simplification rules\n    \"UP\",     # pyupgrade\n    \"W\"       # pycodestyle warnings\n]\n"

/-- `make_requirements_tests` (lines 200-210). -/
def make_requirements_tests : String :=
  "-r requirements.txt\npytest==8.4.1\npytest-cov==6.2.1\npytest-mock==3.14.1\nbandit==1.8.5\npip-audit==2.7.3\nimport-linter==2.3\nruff\n"

/-- `make_precommit` (lines 213-226). -/
def make_precommit : String :=
  "repos:\n  - repo: https://github.com/astral-sh/ruff-pre-commit\n    rev: v0.6.4\n    hooks:\n      - id: ruff\n      - id: ruff-format\n  - repo: https://github.com/pre-commit/pre-commit-hooks\n    rev: v4.6.0\n    hooks:\n      - id: end-of-file-fixer\n      - id: trailing-whitespace\n"

/-- `make_env_example` (lines 229-234). -/
def make_env_example : String :=
  "# Example environment variables\nAPP_ENV=development\nAPP_DEBUG=true\n"

/-- `make_main` (lines 237-244). -/
def make_main : String :=
  "from fastapi import FastAPI\nfrom src.api.v1.endpoints import health\n\napp = FastAPI(title=\"DDD FastAPI Service\")\napp.include_router(health.router, prefix=\"/v1\")\n"

/-- `make_dependencies` (lines 247-254). -/
def make_dependencies : String :=
  "from fastapi import Depends\n\n# Placeholder dependencies\ndef get_example_dep():\n    return \"dep\"\n"

/-- `make_schemas` (lines 257-263). -/
def make_schemas : String :=
  "from pydantic import BaseModel\n\nclass HealthResponse(BaseModel):\n    status: str\n"

/-- `make_sample_endpoint` (lines 266-276). -/
def make_sample_endpoint : String :=
  "from fastapi import APIRouter\nfrom src.api.v1.schemas import HealthResponse\n\nrouter = APIRouter()\n\n@router.get(\"/health\", response_model=HealthResponse)\ndef health():\n    return \x7b\"status\": \"ok\"\x7d\n"

/-- `make_test_health` (lines 279-290). -/
def make_test_health : String :=
  "from fastapi.testclient import TestClient\nfrom src.main import app\n\nclient = TestClient(app)\n\ndef test_health():\n    resp = client.get(\"/v1/health\")\n    assert resp.status_code == 200\n    assert resp.json()[\"status\"] == \"ok\"\n"

/-- `make_config` (lines 293-303); the whitespace-only line inside the
class body is normalized to empty by `dedent`. -/
def make_config : String :=
  "from pydantic import BaseSettings, SettingsConfigDict\n\nclass Settings(BaseSettings):\n    app_env: str = \"development\"\n    app_debug: bool = True\n\n    model_config = SettingsConfigDict(env_file=\".env\", env_file_encoding=\"utf-8\")\nsettings = Settings()\n"

/-!
The scaffold procedure (scaffold.py lines 307-362).  The straight-line
Python body is embedded as a list of `Step`s executed by `runSteps`, in
source order: the eleven directory creations (each `d.mkdir(...)` followed
by `write_init(d)`, the latter called without the force flag, lines
327-329), then the twenty `write_file` calls (lines 332-360).
-/

/-- The declared directory list (lines 314-326), as suffixes relative to
the root, in source order. -/
def dirSuffixes : List Path :=
  [["src"],
   ["src", "api"],
   ["src", "api", "v1", "endpoints"],
   ["src", "api", "v1"],
   ["src", "application"],
   ["src", "domain"],
   ["src", "infrastructure"],
   ["tests", "api"],
   ["tests", "application"],
   ["tests", "domain"],
   ["tests", "infrastructure"]]

/-- The declared directories under a given root. -/
def dirsList (root : Path) : List Path :=
  dirSuffixes.map (fun s => root ++ s)

/-- The artifact catalog (lines 332-360): root-relative path and rendered
content for each `write_file` call, in source order.  `root / "src/.env"`
and `root / "src/config.py"` contain a path separator, which `pathlib`
splits into two segments. -/
def fileSuffixes (project_name : String) : List (Path × String) :=
  [(["pyproject.toml"], make_pyproject project_name),
   (["requirements.txt"], make_requirements),
   (["requirements-tests.txt"], make_requirements_tests),
   (["Dockerfile"], make_dockerfile),
   (["infra", "docker-compose.yml"], make_compose project_name),
   (["Makefile"], make_makefile),
   ([".gitignore"], make_gitignore),
   (["pytest.ini"], make_pytest_ini),
   ([".importlinter"], make_importlinter),
   (["ruff.toml"], make_ruff_toml),
   ([".pre-commit-config.yaml"], make_precommit),
   ([".env.example"], make_env_example),
   ([".env"], make_env_example),
   (["src", "main.py"], make_main),
   (["src", "api", "v1", "dependencies.py"], make_dependencies),
   (["src", "api", "v1", "schemas.py"], make_schemas),
   (["src", "api", "v1", "endpoints", "health.py"], make_sample_endpoint),
   (["src", "config.py"], make_config),
   (["src", ".env"], make_env_example),
   (["tests", "api", "test_health.py"], make_test_health)]

/-- The artifact paths alone, without rendered contents. -/
def filePathSuffixes : List Path :=
  [["pyproject.toml"],
   ["requirements.txt"],
   ["requirements-tests.txt"],
   ["Dockerfile"],
   ["infra", "docker-compose.yml"],
   ["Makefile"],
   [".gitignore"],
   ["pytest.ini"],
   [".importlinter"],
   ["ruff.toml"],
   [".pre-commit-config.yaml"],
   [".env.example"],
   [".env"],
   ["src", "main.py"],
   ["src", "api", "v1", "dependencies.py"],
   ["src", "api", "v1", "schemas.py"],
   ["src", "api", "v1", "endpoints", "health.py"],
   ["src", "config.py"],
   ["src", ".env"],
   ["tests", "api", "test_health.py"]]

/-- The artifact catalog resolved against a root. -/
def baseFiles (root : Path) (project_name : String) : List (Path × String) :=
  (fileSuffixes project_name).map (fun e => (root ++ e.1, e.2))

/-- `d.mkdir(parents=True, exist_ok=True)` (line 328) as a step. -/
def mkdirStep (d : Path) (fs : FS) : FS × Option RunError :=
  if fs.mkdirOk d then (fs.mkdirAll d, none) else (fs, some RunError.ioError)

/-- One iteration of the directory loop (lines 327-329): mkdir, then
`write_init(d)` — note the force flag is not forwarded. -/
def dirStep (d : Path) (fs : FS) : FS × Option RunError :=
  match mkdirStep d fs with
  | (fs1, none) => write_init fs1 d false
  | (fs1, some e) => (fs1, some e)

/-- One `write_file(path, content, force)` call as a step. -/
def writeStep (force : Bool) (pc : Path × String) (fs : FS) :
    FS × Option RunError :=
  write_file fs pc.1 pc.2 force

/-- The body of `scaffold` after the root guard, in source order. -/
def scaffoldSteps (root : Path) (project_name : String) (force : Bool) :
    List Step :=
  (dirsList root).map dirStep ++
    (baseFiles root project_name).map (writeStep force)

/-- The root guard (lines 309-311):
`root.exists() and any(root.iterdir()) and not force`.  When the root
exists as a directory with at least one entry and force is not set, the
program exits with status 1; `iterdir()` on an existing non-directory
raises `NotADirectoryError` before `not force` is reached. -/
def rootGuard (fs : FS) (root : Path) (force : Bool) : Option RunError :=
  if fs.isDir root then
    if fs.dirNonEmpty root && !force then some RunError.destinationNotEmpty
    else none
  else if fs.isFile root then some RunError.ioError
  else none

/-- `scaffold` with the root already joined (lines 309-362). -/
def scaffoldRoot (fs : FS) (root : Path) (project_name : String)
    (force : Bool) : FS × Option RunError :=
  match rootGuard fs root force with
  | some e => (fs, some e)
  | none => runSteps (scaffoldSteps root project_name force) fs

/-- `scaffold(project_path, project_name, force)` (lines 307-362);
`root = Path(project_path) / project_name` (line 308). -/
def scaffold (fs : FS) (project_path : Path) (project_name : String)
    (force : Bool) : FS × Option RunError :=
  scaffoldRoot fs (joinName project_path project_name) project_name force

/-- Every path the run may write a file to: the directory markers and the
catalog artifacts. -/
def writtenPaths (root : Path) (project_name : String) : List Path :=
  (dirsList root).map (fun d => d ++ [initName]) ++
    (baseFiles root project_name).map (fun pc => pc.1)

/-! ### Path and filesystem toolkit -/

theorem append_ne_append (root : Path) {a b : Path} (h : a ≠ b) :
    root ++ a ≠ root ++ b :=
  fun he => h (List.append_cancel_left he)

theorem pathPrefixes_append (a b : Path) :
    pathPrefixes (a ++ b) =
      pathPrefixes a ++ (pathPrefixes b).map (fun q => a ++ q) := by
  induction a with
  | nil => simp [pathPrefixes]
  | cons x xs ih =>
    simp [pathPrefixes, ih, List.map_map, Function.comp]

theorem self_mem_pathPrefixes {p : Path} (h : p ≠ []) : p ∈ pathPrefixes p := by
  induction p with
  | nil => exact absurd rfl h
  | cons x xs ih =>
    cases xs with
    | nil => simp [pathPrefixes]
    | cons y ys =>
      have hm : y :: ys ∈ pathPrefixes (y :: ys) := ih (by simp)
      simp only [pathPrefixes]
      exact List.mem_cons.2 (Or.inr (List.mem_map.2 ⟨y :: ys, hm, rfl⟩))

theorem length_le_of_mem_pathPrefixes {q p : Path} (h : q ∈ pathPrefixes p) :
    q.length ≤ p.length := by
  induction p generalizing q with
  | nil => simp [pathPrefixes] at h
  | cons x xs ih =>
    simp only [pathPrefixes, List.mem_cons, List.mem_map] at h
    rcases h with rfl | ⟨w, hw, rfl⟩
    · simp
    · simpa using ih hw

theorem mem_pathPrefixes_append_elim {q root s : Path}
    (h : q ∈ pathPrefixes (root ++ s)) :
    q ∈ pathPrefixes root ∨ ∃ w ∈ pathPrefixes s, q = root ++ w := by
  rw [pathPrefixes_append] at h
  rcases List.mem_append.1 h with h1 | h2
  · exact Or.inl h1
  · rcases List.mem_map.1 h2 with ⟨w, hw, rfl⟩
    exact Or.inr ⟨w, hw, rfl⟩

theorem isDir_iff {fs : FS} {q : Path} :
    fs.isDir q = true ↔ q = [] ∨ q ∈ fs.dirs := by
  simp [FS.isDir, List.isEmpty_iff]

theorem lookupFile_setFile_self (fs : FS) (p : Path) (c : String) :
    (fs.setFile p c).lookupFile p = some c := by
  simp [FS.setFile, FS.lookupFile, List.find?]

theorem find?_filter_ne {q p : Path} (hqp : q ≠ p) :
    ∀ l : List (Path × String),
      (l.filter (fun e => !(e.1 == p))).find? (fun e => e.1 == q) =
        l.find? (fun e => e.1 == q)
  | [] => rfl
  | a :: l => by
    by_cases hap : a.1 = p
    · have h1 : (a.1 == p) = true := by simp [hap]
      have h2 : (a.1 == q) = false := by simp [hap]; exact fun h => hqp h.symm
      simp [List.filter, List.find?, h1, h2, find?_filter_ne hqp l]
    · have h1 : (a.1 == p) = false := by simp [hap]
      by_cases haq : a.1 = q
      · have h2 : (a.1 == q) = true := by simp [haq]
        simp [List.filter, List.find?, h1, h2]
      · have h2 : (a.1 == q) = false := by simp [haq]
        simp [List.filter, List.find?, h1, h2, find?_filter_ne hqp l]

theorem lookupFile_setFile_ne (fs : FS) {q p : Path} (c : String)
    (hqp : q ≠ p) : (fs.setFile p c).lookupFile q = fs.lookupFile q := by
  have hpq : (p == q) = false := by
    simp only [beq_eq_false_iff_ne, ne_eq]
    exact fun h => hqp h.symm
  simp [FS.setFile, FS.lookupFile, List.find?, hpq, find?_filter_ne hqp]

theorem isDir_setFile (fs : FS) (p : Path) (c : String) (q : Path) :
    (fs.setFile p c).isDir q = fs.isDir q := rfl

theorem lookupFile_mkdirAll (fs : FS) (p q : Path) :
    (fs.mkdirAll p).lookupFile q = fs.lookupFile q := rfl

theorem isFile_setFile_mono (fs : FS) {q : Path} (p : Path) (c : String)
    (h : fs.isFile q = true) : (fs.setFile p c).isFile q = true := by
  by_cases hqp : q = p
  · subst hqp
    simp [FS.isFile, lookupFile_setFile_self]
  · simpa [FS.isFile, lookupFile_setFile_ne fs c hqp] using h

theorem isDir_mkdirAll_of_isDir (fs : FS) {q : Path} (p : Path)
    (h : fs.isDir q = true) : (fs.mkdirAll p).isDir q = true := by
  rcases isDir_iff.1 h with rfl | hm
  · simp [FS.isDir]
  · exact isDir_iff.2 (Or.inr (by simp [FS.mkdirAll, hm]))

theorem isDir_mkdirAll_of_mem (fs : FS) {q p : Path}
    (h : q ∈ pathPrefixes p) : (fs.mkdirAll p).isDir q = true :=
  isDir_iff.2 (Or.inr (by simp [FS.mkdirAll, h]))

theorem isDir_mkdirAll_cases {fs : FS} {q p : Path}
    (h : (fs.mkdirAll p).isDir q = true) :
    fs.isDir q = true ∨ q ∈ pathPrefixes p := by
  rcases isDir_iff.1 h with rfl | hm
  · exact Or.inl (by simp [FS.isDir])
  · rcases List.mem_append.1 (by simpa [FS.mkdirAll] using hm) with h1 | h2
    · exact Or.inr h1
    · exact Or.inl (isDir_iff.2 (Or.inr h2))

theorem pathExists_setFile_mono (fs : FS) {q : Path} (p : Path) (c : String)
    (h : fs.pathExists q = true) : (fs.setFile p c).pathExists q = true := by
  rcases Bool.or_eq_true_iff.1 h with h1 | h2
  · exact Bool.or_eq_true_iff.2 (Or.inl (isFile_setFile_mono fs p c h1))
  · exact Bool.or_eq_true_iff.2 (Or.inr (by rw [isDir_setFile]; exact h2))

theorem pathExists_mkdirAll_mono (fs : FS) {q : Path} (p : Path)
    (h : fs.pathExists q = true) : (fs.mkdirAll p).pathExists q = true := by
  rcases Bool.or_eq_true_iff.1 h with h1 | h2
  · refine Bool.or_eq_true_iff.2 (Or.inl ?_)
    simpa [FS.isFile, lookupFile_mkdirAll] using h1
  · exact Bool.or_eq_true_iff.2 (Or.inr (isDir_mkdirAll_of_isDir fs p h2))

/-! ### Length facts about path prefixes -/

theorem concat_not_mem_pathPrefixes (d : Path) (x : String) :
    d ++ [x] ∉ pathPrefixes d := by
  intro h
  have h1 := length_le_of_mem_pathPrefixes h
  simp [List.length_append] at h1

theorem not_mem_pathPrefixes_dropLast {p : Path} (h : p ≠ []) :
    p ∉ pathPrefixes p.dropLast := by
  intro hm
  have h1 := length_le_of_mem_pathPrefixes hm
  have h2 : p.dropLast.length = p.length - 1 := by simp
  have h3 : 0 < p.length := List.length_pos.2 h
  omega

theorem pathExists_nil (fs : FS) : fs.pathExists [] = true := by
  simp [FS.pathExists, FS.isDir]

/-! ### `write_file` step lemmas -/

theorem write_file_lookup_frame (fs : FS) {q p : Path} (c : String)
    (force : Bool) (hqp : q ≠ p) :
    ((write_file fs p c force).1).lookupFile q = fs.lookupFile q := by
  cases h1 : fs.mkdirOk p.dropLast with
  | false => simp [write_file, h1]
  | true =>
    cases h2 : ((fs.mkdirAll p.dropLast).pathExists p && !force) with
    | true => simp [write_file, h1, h2, lookupFile_mkdirAll]
    | false =>
      cases h3 : ((fs.mkdirAll p.dropLast).writeTextOk p) with
      | false => simp [write_file, h1, h2, h3, lookupFile_mkdirAll]
      | true =>
        have : (write_file fs p c force).1 =
            (fs.mkdirAll p.dropLast).setFile p c := by
          simp [write_file, h1, h2, h3]
        rw [this]
        exact (lookupFile_setFile_ne _ _ hqp).trans rfl

theorem write_file_isDir_mono (fs : FS) {q : Path} (p : Path) (c : String)
    (force : Bool) (h : fs.isDir q = true) :
    ((write_file fs p c force).1).isDir q = true := by
  cases h1 : fs.mkdirOk p.dropLast with
  | false => simpa [write_file, h1] using h
  | true =>
    cases h2 : ((fs.mkdirAll p.dropLast).pathExists p && !force) with
    | true =>
      simpa [write_file, h1, h2] using isDir_mkdirAll_of_isDir fs p.dropLast h
    | false =>
      cases h3 : ((fs.mkdirAll p.dropLast).writeTextOk p) with
      | false =>
        simpa [write_file, h1, h2, h3] using
          isDir_mkdirAll_of_isDir fs p.dropLast h
      | true =>
        have heq : (write_file fs p c force).1 =
            (fs.mkdirAll p.dropLast).setFile p c := by
          simp [write_file, h1, h2, h3]
        rw [heq, isDir_setFile]
        exact isDir_mkdirAll_of_isDir fs p.dropLast h

theorem write_file_isFile_mono (fs : FS) {q : Path} (p : Path) (c : String)
    (force : Bool) (h : fs.isFile q = true) :
    ((write_file fs p c force).1).isFile q = true := by
  by_cases hqp : q = p
  · subst hqp
    cases h1 : fs.mkdirOk q.dropLast with
    | false => simpa [write_file, h1] using h
    | true =>
      cases h2 : ((fs.mkdirAll q.dropLast).pathExists q && !force) with
      | true =>
        simpa [write_file, h1, h2, FS.isFile, lookupFile_mkdirAll] using h
      | false =>
        cases h3 : ((fs.mkdirAll q.dropLast).writeTextOk q) with
        | false =>
          simpa [write_file, h1, h2, h3, FS.isFile, lookupFile_mkdirAll]
            using h
        | true =>
          have heq : (write_file fs q c force).1 =
              (fs.mkdirAll q.dropLast).setFile q c := by
            simp [write_file, h1, h2, h3]
          rw [heq]
          simp [FS.isFile, lookupFile_setFile_self]
  · have hfr := write_file_lookup_frame fs c force hqp
    simpa [FS.isFile, hfr] using h

theorem write_file_isDir_cases {fs : FS} {q p : Path} {c : String}
    {force : Bool} (h : ((write_file fs p c force).1).isDir q = true) :
    fs.isDir q = true ∨ q ∈ pathPrefixes p.dropLast := by
  cases h1 : fs.mkdirOk p.dropLast with
  | false =>
    simp [write_file, h1] at h
    exact Or.inl h
  | true =>
    cases h2 : ((fs.mkdirAll p.dropLast).pathExists p && !force) with
    | true =>
      simp [write_file, h1, h2] at h
      rcases isDir_mkdirAll_cases h with hx | hx
      · exact Or.inl hx
      · exact Or.inr hx
    | false =>
      cases h3 : ((fs.mkdirAll p.dropLast).writeTextOk p) with
      | false =>
        simp [write_file, h1, h2, h3] at h
        rcases isDir_mkdirAll_cases h with hx | hx
        · exact Or.inl hx
        · exact Or.inr hx
      | true =>
        have heq : (write_file fs p c force).1 =
            (fs.mkdirAll p.dropLast).setFile p c := by
          simp [write_file, h1, h2, h3]
        rw [heq, isDir_setFile] at h
        rcases isDir_mkdirAll_cases h with hx | hx
        · exact Or.inl hx
        · exact Or.inr hx

theorem write_file_no_dne (fs : FS) (p : Path) (c : String) (force : Bool) :
    (write_file fs p c force).2 ≠ some RunError.destinationNotEmpty := by
  cases h1 : fs.mkdirOk p.dropLast with
  | false => simp [write_file, h1]
  | true =>
    cases h2 : ((fs.mkdirAll p.dropLast).pathExists p && !force) with
    | true => simp [write_file, h1, h2]
    | false =>
      cases h3 : ((fs.mkdirAll p.dropLast).writeTextOk p) with
      | false => simp [write_file, h1, h2, h3]
      | true => simp [write_file, h1, h2, h3]

theorem write_file_success_content {fs fs' : FS} {p : Path} {c : String}
    (h : write_file fs p c true = (fs', none)) :
    fs'.lookupFile p = some c := by
  cases h1 : fs.mkdirOk p.dropLast with
  | false => simp [write_file, h1] at h
  | true =>
    have h2 : ((fs.mkdirAll p.dropLast).pathExists p && !true) = false := by
      simp
    cases h3 : ((fs.mkdirAll p.dropLast).writeTextOk p) with
    | false => simp [write_file, h1, h2, h3] at h
    | true =>
      have hw : write_file fs p c true =
          ((fs.mkdirAll p.dropLast).setFile p c, none) := by
        simp [write_file, h1, h2, h3]
      rw [h] at hw
      have heq : fs' = (fs.mkdirAll p.dropLast).setFile p c :=
        congrArg Prod.fst hw
      rw [heq]
      exact lookupFile_setFile_self _ _ _

theorem write_file_success_exists {fs fs' : FS} {p : Path} {c : String}
    {force : Bool} (h : write_file fs p c force = (fs', none))
    (habs : fs.pathExists p = false) : fs'.isFile p = true := by
  have hpne : p ≠ [] := by
    intro hp
    rw [hp, pathExists_nil] at habs
    simp at habs
  have hfile : fs.isFile p = false := by
    cases hx : fs.isFile p with
    | false => rfl
    | true => simp [FS.pathExists, hx] at habs
  have hdir : fs.isDir p = false := by
    cases hx : fs.isDir p with
    | false => rfl
    | true => simp [FS.pathExists, hx] at habs
  have habs1 : (fs.mkdirAll p.dropLast).pathExists p = false := by
    cases hx : (fs.mkdirAll p.dropLast).pathExists p with
    | false => rfl
    | true =>
      exfalso
      rcases Bool.or_eq_true_iff.1 hx with hy | hy
      · rw [show (fs.mkdirAll p.dropLast).isFile p = fs.isFile p from rfl,
          hfile] at hy
        exact Bool.false_ne_true hy
      · rcases isDir_mkdirAll_cases hy with hz | hz
        · rw [hdir] at hz
          exact Bool.false_ne_true hz
        · exact not_mem_pathPrefixes_dropLast hpne hz
  cases h1 : fs.mkdirOk p.dropLast with
  | false => simp [write_file, h1] at h
  | true =>
    have h2 : ((fs.mkdirAll p.dropLast).pathExists p && !force) = false := by
      simp [habs1]
    cases h3 : ((fs.mkdirAll p.dropLast).writeTextOk p) with
    | false => simp [write_file, h1, h2, h3] at h
    | true =>
      have hw : write_file fs p c force =
          ((fs.mkdirAll p.dropLast).setFile p c, none) := by
        simp [write_file, h1, h2, h3]
      rw [h] at hw
      have heq : fs' = (fs.mkdirAll p.dropLast).setFile p c :=
        congrArg Prod.fst hw
      rw [heq]
      simp [FS.isFile, lookupFile_setFile_self]

theorem write_file_pathExists_bound (fs : FS) {b p : Path} (c : String)
    (force : Bool) (habs : fs.pathExists b = false) (hb1 : b ≠ p)
    (hb2 : b ∉ pathPrefixes p.dropLast) :
    ((write_file fs p c force).1).pathExists b = false := by
  have hfile : fs.isFile b = false := by
    cases hx : fs.isFile b with
    | false => rfl
    | true => simp [FS.pathExists, hx] at habs
  have hdir : fs.isDir b = false := by
    cases hx : fs.isDir b with
    | false => rfl
    | true => simp [FS.pathExists, hx] at habs
  cases hx : ((write_file fs p c force).1).pathExists b with
  | false => rfl
  | true =>
    exfalso
    rcases Bool.or_eq_true_iff.1 hx with hy | hy
    · rw [FS.isFile, write_file_lookup_frame fs c force hb1] at hy
      rw [FS.isFile] at hfile
      rw [hfile] at hy
      exact Bool.false_ne_true hy
    · rcases write_file_isDir_cases hy with hz | hz
      · rw [hdir] at hz
        exact Bool.false_ne_true hz
      · exact hb2 hz

/-! ### `write_init` step lemmas -/

theorem write_init_dirs (fs : FS) (d : Path) (force : Bool) :
    ((write_init fs d force).1).dirs = fs.dirs := by
  cases h1 : (!(fs.pathExists (d ++ [initName])) || force) with
  | false => simp [write_init, h1]
  | true =>
    cases h2 : fs.writeTextOk (d ++ [initName]) with
    | false => simp [write_init, h1, h2]
    | true => simp [write_init, h1, h2, FS.setFile]

theorem write_init_isDir (fs : FS) (d : Path) (force : Bool) (q : Path) :
    ((write_init fs d force).1).isDir q = fs.isDir q := by
  rw [FS.isDir, FS.isDir, write_init_dirs]

theorem write_init_lookup_frame (fs : FS) {q d : Path} (force : Bool)
    (hq : q ≠ d ++ [initName]) :
    ((write_init fs d force).1).lookupFile q = fs.lookupFile q := by
  cases h1 : (!(fs.pathExists (d ++ [initName])) || force) with
  | false => simp [write_init, h1]
  | true =>
    cases h2 : fs.writeTextOk (d ++ [initName]) with
    | false => simp [write_init, h1, h2]
    | true =>
      have heq : (write_init fs d force).1 =
          fs.setFile (d ++ [initName]) initContent := by
        simp [write_init, h1, h2]
      rw [heq]
      exact lookupFile_setFile_ne _ _ hq

theorem write_init_isFile_mono (fs : FS) {q : Path} (d : Path) (force : Bool)
    (h : fs.isFile q = true) : ((write_init fs d force).1).isFile q = true := by
  cases h1 : (!(fs.pathExists (d ++ [initName])) || force) with
  | false => simpa [write_init, h1] using h
  | true =>
    cases h2 : fs.writeTextOk (d ++ [initName]) with
    | false => simpa [write_init, h1, h2] using h
    | true =>
      have heq : (write_init fs d force).1 =
          fs.setFile (d ++ [initName]) initContent := by
        simp [write_init, h1, h2]
      rw [heq]
      exact isFile_setFile_mono fs _ _ h

theorem write_init_pathExists_mono (fs : FS) {q : Path} (d : Path)
    (force : Bool) (h : fs.pathExists q = true) :
    ((write_init fs d force).1).pathExists q = true := by
  rcases Bool.or_eq_true_iff.1 h with h1 | h1
  · exact Bool.or_eq_true_iff.2 (Or.inl (write_init_isFile_mono fs d force h1))
  · exact Bool.or_eq_true_iff.2 (Or.inr (by rw [write_init_isDir]; exact h1))

theorem write_init_skip (fs : FS) {d : Path}
    (h : fs.pathExists (d ++ [initName]) = true) :
    write_init fs d false = (fs, none) := by
  simp [write_init, h]

theorem write_init_success_written {fs fs' : FS} {d : Path} {force : Bool}
    (habs : fs.pathExists (d ++ [initName]) = false)
    (h : write_init fs d force = (fs', none)) :
    fs'.lookupFile (d ++ [initName]) = some initContent := by
  have h1 : (!(fs.pathExists (d ++ [initName])) || force) = true := by
    simp [habs]
  cases h2 : fs.writeTextOk (d ++ [initName]) with
  | false => simp [write_init, h1, h2] at h
  | true =>
    have hw : write_init fs d force =
        (fs.setFile (d ++ [initName]) initContent, none) := by
      simp [write_init, h1, h2]
    rw [h] at hw
    have heq : fs' = fs.setFile (d ++ [initName]) initContent :=
      congrArg Prod.fst hw
    rw [heq]
    exact lookupFile_setFile_self _ _ _

theorem write_init_no_dne (fs : FS) (d : Path) (force : Bool) :
    (write_init fs d force).2 ≠ some RunError.destinationNotEmpty := by
  cases h1 : (!(fs.pathExists (d ++ [initName])) || force) with
  | false => simp [write_init, h1]
  | true =>
    cases h2 : fs.writeTextOk (d ++ [initName]) with
    | false => simp [write_init, h1, h2]
    | true => simp [write_init, h1, h2]

theorem write_init_pathExists_bound (fs : FS) {q d : Path} (force : Bool)
    (habs : fs.pathExists q = false) (hq : q ≠ d ++ [initName]) :
    ((write_init fs d force).1).pathExists q = false := by
  have hfile : fs.isFile q = false := by
    cases hx : fs.isFile q with
    | false => rfl
    | true => simp [FS.pathExists, hx] at habs
  have hdir : fs.isDir q = false := by
    cases hx : fs.isDir q with
    | false => rfl
    | true => simp [FS.pathExists, hx] at habs
  rw [FS.pathExists, FS.isFile, write_init_lookup_frame fs force hq,
    write_init_isDir, ← FS.isFile, hfile, hdir]
  rfl

/-! ### `mkdirStep` and `dirStep` lemmas -/

theorem mkdirStep_shape (d : Path) (fs : FS) :
    (fs.mkdirOk d = true ∧ mkdirStep d fs = (fs.mkdirAll d, none)) ∨
    (fs.mkdirOk d = false ∧ mkdirStep d fs = (fs, some RunError.ioError)) := by
  cases h : fs.mkdirOk d with
  | true => exact Or.inl ⟨rfl, by simp [mkdirStep, h]⟩
  | false => exact Or.inr ⟨rfl, by simp [mkdirStep, h]⟩

theorem dirStep_shape (d : Path) (fs : FS) :
    (dirStep d fs = write_init (fs.mkdirAll d) d false) ∨
    (dirStep d fs = (fs, some RunError.ioError)) := by
  cases h : fs.mkdirOk d with
  | true => exact Or.inl (by simp [dirStep, mkdirStep, h])
  | false => exact Or.inr (by simp [dirStep, mkdirStep, h])

theorem dirStep_lookup_frame (fs : FS) {q d : Path}
    (hq : q ≠ d ++ [initName]) :
    ((dirStep d fs).1).lookupFile q = fs.lookupFile q := by
  rcases dirStep_shape d fs with h | h
  · rw [h, write_init_lookup_frame _ _ hq, lookupFile_mkdirAll]
  · rw [h]

theorem dirStep_isDir_mono (fs : FS) {q : Path} (d : Path)
    (h : fs.isDir q = true) : ((dirStep d fs).1).isDir q = true := by
  rcases dirStep_shape d fs with hs | hs
  · rw [hs, write_init_isDir]
    exact isDir_mkdirAll_of_isDir fs d h
  · rw [hs]
    exact h

theorem dirStep_isDir_cases {fs : FS} {q d : Path}
    (h : ((dirStep d fs).1).isDir q = true) :
    fs.isDir q = true ∨ q ∈ pathPrefixes d := by
  rcases dirStep_shape d fs with hs | hs
  · rw [hs, write_init_isDir] at h
    exact isDir_mkdirAll_cases h
  · rw [hs] at h
    exact Or.inl h

theorem dirStep_isFile_mono (fs : FS) {q : Path} (d : Path)
    (h : fs.isFile q = true) : ((dirStep d fs).1).isFile q = true := by
  rcases dirStep_shape d fs with hs | hs
  · rw [hs]
    refine write_init_isFile_mono _ _ _ ?_
    simpa [FS.isFile, lookupFile_mkdirAll] using h
  · rw [hs]
    exact h

theorem dirStep_pathExists_mono (fs : FS) {q : Path} (d : Path)
    (h : fs.pathExists q = true) :
    ((dirStep d fs).1).pathExists q = true := by
  rcases Bool.or_eq_true_iff.1 h with h1 | h1
  · exact Bool.or_eq_true_iff.2 (Or.inl (dirStep_isFile_mono fs d h1))
  · exact Bool.or_eq_true_iff.2 (Or.inr (dirStep_isDir_mono fs d h1))

theorem dirStep_success_dirs {fs fs' : FS} {d : Path}
    (h : dirStep d fs = (fs', none)) :
    ∀ q ∈ pathPrefixes d, fs'.isDir q = true := by
  intro q hq
  rcases dirStep_shape d fs with hs | hs
  · rw [hs] at h
    have heq : fs' = (write_init (fs.mkdirAll d) d false).1 :=
      (congrArg Prod.fst h).symm
    rw [heq, write_init_isDir]
    exact isDir_mkdirAll_of_mem fs hq
  · rw [hs] at h
    exact absurd (congrArg Prod.snd h) (by simp)

theorem dirStep_success_marker {fs fs' : FS} {d : Path}
    (habs : fs.pathExists (d ++ [initName]) = false)
    (h : dirStep d fs = (fs', none)) :
    fs'.lookupFile (d ++ [initName]) = some initContent := by
  rcases dirStep_shape d fs with hs | hs
  · rw [hs] at h
    have habs1 : (fs.mkdirAll d).pathExists (d ++ [initName]) = false := by
      have hfile : fs.isFile (d ++ [initName]) = false := by
        cases hx : fs.isFile (d ++ [initName]) with
        | false => rfl
        | true => simp [FS.pathExists, hx] at habs
      have hdir : fs.isDir (d ++ [initName]) = false := by
        cases hx : fs.isDir (d ++ [initName]) with
        | false => rfl
        | true => simp [FS.pathExists, hx] at habs
      cases hx : (fs.mkdirAll d).pathExists (d ++ [initName]) with
      | false => rfl
      | true =>
        exfalso
        rcases Bool.or_eq_true_iff.1 hx with hy | hy
        · rw [show (fs.mkdirAll d).isFile (d ++ [initName]) =
              fs.isFile (d ++ [initName]) from rfl, hfile] at hy
          exact Bool.false_ne_true hy
        · rcases isDir_mkdirAll_cases hy with hz | hz
          · rw [hdir] at hz
            exact Bool.false_ne_true hz
          · exact concat_not_mem_pathPrefixes d initName hz
    exact write_init_success_written habs1 h
  · rw [hs] at h
    exact absurd (congrArg Prod.snd h) (by simp)

theorem dirStep_marker_keep (fs : FS) {d : Path}
    (h : fs.pathExists (d ++ [initName]) = true) :
    ((dirStep d fs).1).lookupFile (d ++ [initName]) =
      fs.lookupFile (d ++ [initName]) := by
  rcases dirStep_shape d fs with hs | hs
  · rw [hs]
    have h1 : (fs.mkdirAll d).pathExists (d ++ [initName]) = true :=
      pathExists_mkdirAll_mono fs d h
    rw [write_init_skip _ h1]
    exact lookupFile_mkdirAll fs d _
  · rw [hs]

theorem dirStep_pathExists_bound (fs : FS) {q d : Path}
    (habs : fs.pathExists q = false) (hq1 : q ≠ d ++ [initName])
    (hq2 : q ∉ pathPrefixes d) :
    ((dirStep d fs).1).pathExists q = false := by
  have hfile : fs.isFile q = false := by
    cases hx : fs.isFile q with
    | false => rfl
    | true => simp [FS.pathExists, hx] at habs
  have hdir : fs.isDir q = false := by
    cases hx : fs.isDir q with
    | false => rfl
    | true => simp [FS.pathExists, hx] at habs
  cases hx : ((dirStep d fs).1).pathExists q with
  | false => rfl
  | true =>
    exfalso
    rcases Bool.or_eq_true_iff.1 hx with hy | hy
    · rw [FS.isFile, dirStep_lookup_frame fs hq1, ← FS.isFile, hfile] at hy
      exact Bool.false_ne_true hy
    · rcases dirStep_isDir_cases hy with hz | hz
      · rw [hdir] at hz
        exact Bool.false_ne_true hz
      · exact hq2 hz

theorem dirStep_no_dne (d : Path) (fs : FS) :
    (dirStep d fs).2 ≠ some RunError.destinationNotEmpty := by
  rcases dirStep_shape d fs with hs | hs
  · rw [hs]
    exact write_init_no_dne _ _ _
  · rw [hs]
    simp

/-! ### `runSteps` lemmas -/

theorem runSteps_preserve (P : FS → Prop) :
    ∀ (l : List Step) (fs : FS),
      (∀ s ∈ l, ∀ fs0, P fs0 → P (s fs0).1) → P fs →
        P ((runSteps l fs).1)
  | [], fs, _, h => h
  | s :: l, fs, hstep, h => by
    have h1 : P ((s fs).1) := hstep s (List.mem_cons_self s l) fs h
    cases hs : s fs with
    | mk fs1 o =>
      rw [hs] at h1
      cases o with
      | none =>
        simp only [runSteps, hs]
        exact runSteps_preserve P l fs1
          (fun s2 hs2 => hstep s2 (List.mem_cons_of_mem s hs2)) h1
      | some e =>
        simp only [runSteps, hs]
        exact h1

theorem runSteps_no_dne :
    ∀ (l : List Step) (fs : FS),
      (∀ s ∈ l, ∀ fs0, (s fs0).2 ≠ some RunError.destinationNotEmpty) →
        (runSteps l fs).2 ≠ some RunError.destinationNotEmpty
  | [], fs, _ => by simp [runSteps]
  | s :: l, fs, hstep => by
    have h1 := hstep s (List.mem_cons_self s l) fs
    cases hs : s fs with
    | mk fs1 o =>
      rw [hs] at h1
      cases o with
      | none =>
        simp only [runSteps, hs]
        exact runSteps_no_dne l fs1
          (fun s2 hs2 => hstep s2 (List.mem_cons_of_mem s hs2))
      | some e =>
        simp only [runSteps, hs]
        exact h1

theorem runSteps_success_cons {s : Step} {l : List Step} {fs fs' : FS}
    (h : runSteps (s :: l) fs = (fs', none)) :
    ∃ fsm, s fs = (fsm, none) ∧ runSteps l fsm = (fs', none) := by
  cases hs : s fs with
  | mk fs1 o =>
    cases o with
    | none =>
      refine ⟨fs1, rfl, ?_⟩
      simpa only [runSteps, hs] using h
    | some e =>
      rw [runSteps, hs] at h
      exact absurd (congrArg Prod.snd h) (by simp)

theorem runSteps_success_append :
    ∀ {l1 l2 : List Step} {fs fs' : FS},
      runSteps (l1 ++ l2) fs = (fs', none) →
        ∃ fsm, runSteps l1 fs = (fsm, none) ∧ runSteps l2 fsm = (fs', none) := by
  intro l1
  induction l1 with
  | nil =>
    intro l2 fs fs' h
    exact ⟨fs, rfl, h⟩
  | cons s l ih =>
    intro l2 fs fs' h
    rw [List.cons_append] at h
    rcases runSteps_success_cons h with ⟨fsm, hs, hrest⟩
    rcases ih hrest with ⟨fsm2, h1, h2⟩
    refine ⟨fsm2, ?_, h2⟩
    simp only [runSteps, hs]
    exact h1

theorem runSteps_failfast :
    ∀ (pre : List Step) (s : Step) (post : List Step) {fs fsm fs2 : FS}
      {e : RunError},
      runSteps pre fs = (fsm, none) → s fsm = (fs2, some e) →
        runSteps (pre ++ s :: post) fs = (fs2, some e)
  | [], s, post, fs, fsm, fs2, e => by
    intro hpre hs
    have hfs : fsm = fs := (congrArg Prod.fst hpre).symm
    subst hfs
    simp only [List.nil_append, runSteps, hs]
  | s0 :: pre, s, post, fs, fsm, fs2, e => by
    intro hpre hs
    cases hs0 : s0 fs with
    | mk fs1 o =>
      cases o with
      | none =>
        rw [runSteps, hs0] at hpre
        rw [List.cons_append, runSteps, hs0]
        exact runSteps_failfast pre s post hpre hs
      | some e0 =>
        rw [runSteps, hs0] at hpre
        exact absurd (congrArg Prod.snd hpre) (by simp)

/-! ### Concrete facts about the catalog's relative paths -/

theorem dirSuffixes_pairwise_ne : dirSuffixes.Pairwise (fun a b => a ≠ b) := by
  decide

theorem filePathSuffixes_pairwise_ne :
    filePathSuffixes.Pairwise (fun a b => a ≠ b) := by decide

theorem fileSuffixes_map_paths (n : String) :
    (fileSuffixes n).map (fun e => e.1) = filePathSuffixes := rfl

theorem dirSuffixes_ne_nil : ∀ s ∈ dirSuffixes, s ≠ [] := by decide

theorem filePathSuffixes_ne_nil : ∀ t ∈ filePathSuffixes, t ≠ [] := by decide

theorem marker_suffix_ne_file_suffix :
    ∀ s ∈ dirSuffixes, ∀ t ∈ filePathSuffixes, s ++ [initName] ≠ t := by
  decide

theorem marker_suffix_not_in_dir_prefixes :
    ∀ s ∈ dirSuffixes, ∀ s2 ∈ dirSuffixes,
      s ++ [initName] ∉ pathPrefixes s2 := by decide

theorem file_suffix_not_in_dir_prefixes :
    ∀ t ∈ filePathSuffixes, ∀ s ∈ dirSuffixes, t ∉ pathPrefixes s := by
  decide

theorem file_suffix_not_in_parent_prefixes :
    ∀ t ∈ filePathSuffixes, ∀ u ∈ filePathSuffixes,
      u ∉ pathPrefixes t.dropLast := by decide

/-! ### Catalog membership, resolved against a root -/

theorem mem_dirsList {root d : Path} (h : d ∈ dirsList root) :
    ∃ s ∈ dirSuffixes, d = root ++ s := by
  rcases List.mem_map.1 h with ⟨s, hs, rfl⟩
  exact ⟨s, hs, rfl⟩

theorem mem_baseFiles {root : Path} {n : String} {pc : Path × String}
    (h : pc ∈ baseFiles root n) :
    ∃ e ∈ fileSuffixes n, pc = (root ++ e.1, e.2) := by
  rcases List.mem_map.1 h with ⟨e, he, rfl⟩
  exact ⟨e, he, rfl⟩

theorem mem_baseFiles_path {root : Path} {n : String} {pc : Path × String}
    (h : pc ∈ baseFiles root n) :
    ∃ t ∈ filePathSuffixes, pc.1 = root ++ t := by
  rcases mem_baseFiles h with ⟨e, he, rfl⟩
  refine ⟨e.1, ?_, rfl⟩
  rw [← fileSuffixes_map_paths n]
  exact List.mem_map_of_mem _ he

theorem append_nonnil_not_mem_pathPrefixes (root : Path) {s : Path}
    (hs : s ≠ []) : root ++ s ∉ pathPrefixes root := by
  intro h
  have h1 := length_le_of_mem_pathPrefixes h
  rw [List.length_append] at h1
  have h2 : 0 < s.length := List.length_pos.2 hs
  omega

theorem marker_ne_artifact {root : Path} {n : String} {d : Path}
    {pc : Path × String} (hd : d ∈ dirsList root)
    (hpc : pc ∈ baseFiles root n) : d ++ [initName] ≠ pc.1 := by
  rcases mem_dirsList hd with ⟨s, hs, rfl⟩
  rcases mem_baseFiles_path hpc with ⟨t, ht, hteq⟩
  rw [hteq, List.append_assoc]
  exact append_ne_append root (marker_suffix_ne_file_suffix s hs t ht)

theorem artifact_ne_marker {root : Path} {n : String} {d : Path}
    {pc : Path × String} (hpc : pc ∈ baseFiles root n)
    (hd : d ∈ dirsList root) : pc.1 ≠ d ++ [initName] :=
  fun h => marker_ne_artifact hd hpc h.symm

theorem marker_not_in_dirsList_prefixes {root : Path} {d d2 : Path}
    (hd : d ∈ dirsList root) (hd2 : d2 ∈ dirsList root) :
    d ++ [initName] ∉ pathPrefixes d2 := by
  rcases mem_dirsList hd with ⟨s, hs, rfl⟩
  rcases mem_dirsList hd2 with ⟨s2, hs2, rfl⟩
  rw [List.append_assoc]
  intro hmem
  rcases mem_pathPrefixes_append_elim hmem with h1 | ⟨w, hw, heq⟩
  · exact append_nonnil_not_mem_pathPrefixes root (by simp) h1
  · have hsw : s ++ [initName] = w := List.append_cancel_left heq
    rw [← hsw] at hw
    exact marker_suffix_not_in_dir_prefixes s hs s2 hs2 hw

theorem artifact_not_in_dirsList_prefixes {root : Path} {n : String}
    {pc : Path × String} {d : Path} (hpc : pc ∈ baseFiles root n)
    (hd : d ∈ dirsList root) : pc.1 ∉ pathPrefixes d := by
  rcases mem_baseFiles_path hpc with ⟨t, ht, hteq⟩
  rcases mem_dirsList hd with ⟨s, hs, rfl⟩
  rw [hteq]
  intro hmem
  rcases mem_pathPrefixes_append_elim hmem with h1 | ⟨w, hw, heq⟩
  · exact append_nonnil_not_mem_pathPrefixes root
      (filePathSuffixes_ne_nil t ht) h1
  · have htw : t = w := List.append_cancel_left heq
    rw [← htw] at hw
    exact file_suffix_not_in_dir_prefixes t ht s hs hw

theorem artifact_not_in_parent_prefixes {root : Path} {n : String}
    {a b : Path × String} (ha : a ∈ baseFiles root n)
    (hb : b ∈ baseFiles root n) : b.1 ∉ pathPrefixes a.1.dropLast := by
  rcases mem_baseFiles_path ha with ⟨t, ht, hta⟩
  rcases mem_baseFiles_path hb with ⟨u, hu, htb⟩
  rw [hta, htb,
    List.dropLast_append_of_ne_nil root (filePathSuffixes_ne_nil t ht)]
  intro hmem
  rcases mem_pathPrefixes_append_elim hmem with h1 | ⟨w, hw, heq⟩
  · exact append_nonnil_not_mem_pathPrefixes root
      (filePathSuffixes_ne_nil u hu) h1
  · have huw : u = w := List.append_cancel_left heq
    rw [← huw] at hw
    exact file_suffix_not_in_parent_prefixes t ht u hu hw

theorem dirsList_pairwise_ne (root : Path) :
    (dirsList root).Pairwise (fun a b => a ≠ b) := by
  rw [dirsList, List.pairwise_map]
  exact dirSuffixes_pairwise_ne.imp (fun h => append_ne_append root h)

theorem artifact_paths_pairwise (root : Path) (n : String) :
    (baseFiles root n).Pairwise (fun a b => a.1 ≠ b.1) := by
  rw [baseFiles, List.pairwise_map]
  have h0 : (fileSuffixes n).Pairwise (fun a b => a.1 ≠ b.1) := by
    have h1 : ((fileSuffixes n).map (fun e => e.1)).Pairwise
        (fun a b => a ≠ b) := by
      rw [fileSuffixes_map_paths]
      exact filePathSuffixes_pairwise_ne
    exact List.pairwise_map.1 h1
  exact h0.imp (fun h => append_ne_append root h)

theorem dirsList_ne_nil {root d : Path} (h : d ∈ dirsList root) : d ≠ [] := by
  rcases mem_dirsList h with ⟨s, hs, rfl⟩
  simp [dirSuffixes_ne_nil s hs]

theorem markers_ne_of_ne {a b : Path} (h : a ≠ b) :
    a ++ [initName] ≠ b ++ [initName] :=
  fun he => h (List.append_cancel_right he)

theorem strictUnder_append (root : Path) {x : Path} (hx : x ≠ []) :
    isStrictUnder root (root ++ x) = true := by
  rw [isStrictUnder]
  refine Bool.and_eq_true_iff.2 ⟨?_, ?_⟩
  · exact List.isPrefixOf_iff_prefix.2 ⟨x, rfl⟩
  · have h2 : 0 < x.length := List.length_pos.2 hx
    simp [List.length_append]
    omega

theorem cleanUnder_pathExists {fs : FS} {root q : Path}
    (hc : fs.cleanUnder root = true) (hq : isStrictUnder root q = true) :
    fs.pathExists q = false := by
  rcases Bool.and_eq_true_iff.1 hc with ⟨hcf, hcd⟩
  cases hx : fs.pathExists q with
  | false => rfl
  | true =>
    exfalso
    rcases Bool.or_eq_true_iff.1 hx with hy | hy
    · rw [FS.isFile, FS.lookupFile] at hy
      cases hfind : fs.files.find? (fun e => e.1 == q) with
      | none => rw [hfind] at hy; simp at hy
      | some a =>
        have hmem := List.mem_of_find?_eq_some hfind
        have hpa := List.find?_some hfind
        have haq : a.1 = q := by simpa using hpa
        have := (List.all_eq_true.1 hcf) a hmem
        rw [haq, hq] at this
        simp at this
    · rcases isDir_iff.1 hy with rfl | hmem
      · rw [isStrictUnder] at hq
        rcases Bool.and_eq_true_iff.1 hq with ⟨_, h2⟩
        simp at h2
      · have := (List.all_eq_true.1 hcd) q hmem
        rw [hq] at this
        simp at this

/-! ### Remaining step monotonicity -/

theorem write_file_pathExists_mono (fs : FS) {q : Path} (p : Path)
    (c : String) (force : Bool) (h : fs.pathExists q = true) :
    ((write_file fs p c force).1).pathExists q = true := by
  rcases Bool.or_eq_true_iff.1 h with h1 | h1
  · exact Bool.or_eq_true_iff.2 (Or.inl (write_file_isFile_mono fs p c force h1))
  · exact Bool.or_eq_true_iff.2 (Or.inr (write_file_isDir_mono fs p c force h1))

/-! ### The file-writing phase -/

theorem filePhase_content :
    ∀ (l : List (Path × String)) {fs fs' : FS},
      l.Pairwise (fun a b => a.1 ≠ b.1) →
      runSteps (l.map (writeStep true)) fs = (fs', none) →
      ∀ pc ∈ l, fs'.lookupFile pc.1 = some pc.2
  | [], fs, fs', _, _ => by simp
  | a :: l, fs, fs', hpw, h => by
    have hmc : (a :: l).map (writeStep true) =
        writeStep true a :: l.map (writeStep true) := List.map_cons _ _ _
    rw [hmc] at h
    rcases runSteps_success_cons h with ⟨fsm, hsa, hrest⟩
    have hpw1 := List.pairwise_cons.1 hpw
    intro pc hpc
    rcases List.mem_cons.1 hpc with rfl | hmem
    · have hcont : fsm.lookupFile pc.1 = some pc.2 :=
        write_file_success_content hsa
      have hpres : ∀ s ∈ l.map (writeStep true), ∀ fs0 : FS,
          fs0.lookupFile pc.1 = some pc.2 →
            ((s fs0).1).lookupFile pc.1 = some pc.2 := by
        intro s hs fs0 h0
        rcases List.mem_map.1 hs with ⟨b, hb, rfl⟩
        have hne : pc.1 ≠ b.1 := hpw1.1 b hb
        rw [writeStep, write_file_lookup_frame fs0 b.2 true hne]
        exact h0
      have hP := runSteps_preserve (fun f => f.lookupFile pc.1 = some pc.2)
        (l.map (writeStep true)) fsm hpres hcont
      rw [hrest] at hP
      exact hP
    · exact filePhase_content l hpw1.2 hrest pc hmem

theorem filePhase_exists :
    ∀ (l : List (Path × String)) (force : Bool) {fs fs' : FS},
      l.Pairwise (fun a b => a.1 ≠ b.1) →
      (∀ a ∈ l, ∀ b ∈ l, b.1 ∉ pathPrefixes a.1.dropLast) →
      (∀ pc ∈ l, fs.pathExists pc.1 = false) →
      runSteps (l.map (writeStep force)) fs = (fs', none) →
      ∀ pc ∈ l, fs'.isFile pc.1 = true
  | [], force, fs, fs', _, _, _, _ => by simp
  | a :: l, force, fs, fs', hpw, hpar, habs, h => by
    have hmc : (a :: l).map (writeStep force) =
        writeStep force a :: l.map (writeStep force) := List.map_cons _ _ _
    rw [hmc] at h
    rcases runSteps_success_cons h with ⟨fsm, hsa, hrest⟩
    have hpw1 := List.pairwise_cons.1 hpw
    intro pc hpc
    rcases List.mem_cons.1 hpc with rfl | hmem
    · have hpcf : fsm.isFile pc.1 = true :=
        write_file_success_exists hsa (habs pc (List.mem_cons_self _ _))
      have hpres : ∀ s ∈ l.map (writeStep force), ∀ fs0 : FS,
          fs0.isFile pc.1 = true → ((s fs0).1).isFile pc.1 = true := by
        intro s hs fs0 h0
        rcases List.mem_map.1 hs with ⟨b, hb, rfl⟩
        exact write_file_isFile_mono fs0 b.1 b.2 force h0
      have hP := runSteps_preserve (fun f => f.isFile pc.1 = true)
        (l.map (writeStep force)) fsm hpres hpcf
      rw [hrest] at hP
      exact hP
    · refine filePhase_exists l force hpw1.2 ?_ ?_ hrest pc hmem
      · intro a2 ha2 b hb
        exact hpar a2 (List.mem_cons_of_mem a ha2) b (List.mem_cons_of_mem a hb)
      · intro b hb
        have hb0 : fs.pathExists b.1 = false :=
          habs b (List.mem_cons_of_mem a hb)
        have hne : b.1 ≠ a.1 :=
          fun he => (hpw1.1 b hb) he.symm
        have hnp : b.1 ∉ pathPrefixes a.1.dropLast :=
          hpar a (List.mem_cons_self _ _) b (List.mem_cons_of_mem a hb)
        have := write_file_pathExists_bound fs a.2 force hb0 hne hnp
        rcases hw : writeStep force a fs with ⟨fsw, o⟩
        have hfsm : fsm = fsw := by
          rw [hw] at hsa
          exact (congrArg Prod.fst hsa).symm
        rw [hfsm]
        have : ((write_file fs a.1 a.2 force).1).pathExists b.1 = false := this
        rw [show (write_file fs a.1 a.2 force) = writeStep force a fs from rfl,
          hw] at this
        exact this

/-! ### The directory phase -/

theorem dirPhase_dirs :
    ∀ (ds : List Path) {fs fs' : FS},
      runSteps (ds.map dirStep) fs = (fs', none) →
      ∀ d ∈ ds, ∀ q ∈ pathPrefixes d, fs'.isDir q = true
  | [], fs, fs', _ => by simp
  | d :: ds, fs, fs', h => by
    have hmc : (d :: ds).map dirStep = dirStep d :: ds.map dirStep :=
      List.map_cons _ _ _
    rw [hmc] at h
    rcases runSteps_success_cons h with ⟨fsm, hsd, hrest⟩
    intro d0 hd0 q hq
    rcases List.mem_cons.1 hd0 with rfl | hmem
    · have hq1 : fsm.isDir q = true := dirStep_success_dirs hsd q hq
      have hpres : ∀ s ∈ ds.map dirStep, ∀ fs0 : FS,
          fs0.isDir q = true → ((s fs0).1).isDir q = true := by
        intro s hs fs0 h0
        rcases List.mem_map.1 hs with ⟨d2, _, rfl⟩
        exact dirStep_isDir_mono fs0 d2 h0
      have hP := runSteps_preserve (fun f => f.isDir q = true)
        (ds.map dirStep) fsm hpres hq1
      rw [hrest] at hP
      exact hP
    · exact dirPhase_dirs ds hrest d0 hmem q hq

theorem dirPhase_frame (ds : List Path) (fs : FS) {q : Path}
    (hq : ∀ d ∈ ds, q ≠ d ++ [initName]) :
    ((runSteps (ds.map dirStep) fs).1).lookupFile q = fs.lookupFile q := by
  have hpres : ∀ s ∈ ds.map dirStep, ∀ fs0 : FS,
      fs0.lookupFile q = fs.lookupFile q →
        ((s fs0).1).lookupFile q = fs.lookupFile q := by
    intro s hs fs0 h0
    rcases List.mem_map.1 hs with ⟨d2, hd2, rfl⟩
    rw [dirStep_lookup_frame fs0 (hq d2 hd2)]
    exact h0
  exact runSteps_preserve (fun f => f.lookupFile q = fs.lookupFile q)
    (ds.map dirStep) fs hpres rfl

theorem dirPhase_isDir_bound :
    ∀ (ds : List Path) (fs : FS) {q : Path},
      ((runSteps (ds.map dirStep) fs).1).isDir q = true →
      fs.isDir q = true ∨ ∃ d ∈ ds, q ∈ pathPrefixes d
  | [], fs, q, h => Or.inl h
  | d :: ds, fs, q, h => by
    have hmc : (d :: ds).map dirStep = dirStep d :: ds.map dirStep :=
      List.map_cons _ _ _
    rw [hmc] at h
    rcases hs : dirStep d fs with ⟨fs1, o⟩
    cases o with
    | none =>
      rw [runSteps, hs] at h
      rcases dirPhase_isDir_bound ds fs1 h with h1 | ⟨d2, hd2, hq2⟩
      · have hfs1 : fs1 = (dirStep d fs).1 := by rw [hs]
        rw [hfs1] at h1
        rcases dirStep_isDir_cases h1 with hx | hx
        · exact Or.inl hx
        · exact Or.inr ⟨d, List.mem_cons_self _ _, hx⟩
      · exact Or.inr ⟨d2, List.mem_cons_of_mem d hd2, hq2⟩
    | some e =>
      rw [runSteps, hs] at h
      have hfs1 : fs1 = (dirStep d fs).1 := by rw [hs]
      rw [show ((fs1, some e) : FS × Option RunError).1 = fs1 from rfl,
        hfs1] at h
      rcases dirStep_isDir_cases h with hx | hx
      · exact Or.inl hx
      · exact Or.inr ⟨d, List.mem_cons_self _ _, hx⟩

theorem dirPhase_markers :
    ∀ (ds : List Path) {fs fs' : FS},
      ds.Pairwise (fun a b => a ≠ b) →
      (∀ d ∈ ds, ∀ d2 ∈ ds, d ++ [initName] ∉ pathPrefixes d2) →
      (∀ d ∈ ds, fs.pathExists (d ++ [initName]) = false) →
      runSteps (ds.map dirStep) fs = (fs', none) →
      ∀ d ∈ ds, fs'.lookupFile (d ++ [initName]) = some initContent
  | [], fs, fs', _, _, _, _ => by simp
  | d :: ds, fs, fs', hpw, hpar, habs, h => by
    have hmc : (d :: ds).map dirStep = dirStep d :: ds.map dirStep :=
      List.map_cons _ _ _
    rw [hmc] at h
    rcases runSteps_success_cons h with ⟨fsm, hsd, hrest⟩
    have hpw1 := List.pairwise_cons.1 hpw
    intro d0 hd0
    rcases List.mem_cons.1 hd0 with rfl | hmem
    · have hm1 : fsm.lookupFile (d0 ++ [initName]) = some initContent :=
        dirStep_success_marker (habs d0 (List.mem_cons_self _ _)) hsd
      have hpres : ∀ s ∈ ds.map dirStep, ∀ fs0 : FS,
          fs0.lookupFile (d0 ++ [initName]) = some initContent →
            ((s fs0).1).lookupFile (d0 ++ [initName]) = some initContent := by
        intro s hs fs0 h0
        rcases List.mem_map.1 hs with ⟨d2, hd2, rfl⟩
        rw [dirStep_lookup_frame fs0 (markers_ne_of_ne (hpw1.1 d2 hd2))]
        exact h0
      have hP := runSteps_preserve
        (fun f => f.lookupFile (d0 ++ [initName]) = some initContent)
        (ds.map dirStep) fsm hpres hm1
      rw [hrest] at hP
      exact hP
    · refine dirPhase_markers ds hpw1.2 ?_ ?_ hrest d0 hmem
      · intro a ha b hb
        exact hpar a (List.mem_cons_of_mem d ha) b (List.mem_cons_of_mem d hb)
      · intro b hb
        have hb0 : fs.pathExists (b ++ [initName]) = false :=
          habs b (List.mem_cons_of_mem d hb)
        have hne : b ++ [initName] ≠ d ++ [initName] :=
          markers_ne_of_ne (fun he => (hpw1.1 b hb) he.symm)
        have hnp : b ++ [initName] ∉ pathPrefixes d :=
          hpar b (List.mem_cons_of_mem d hb) d (List.mem_cons_self _ _)
        have hbound := dirStep_pathExists_bound fs hb0 hne hnp
        rcases hw : dirStep d fs with ⟨fsw, o⟩
        have hfsm : fsm = fsw := by
          rw [hw] at hsd
          exact (congrArg Prod.fst hsd).symm
        rw [hfsm]
        rw [hw] at hbound
        exact hbound

/-! ### Root guard and step decomposition -/

theorem scaffoldRoot_guard_none {fs : FS} {root : Path} {n : String}
    {force : Bool} (h : rootGuard fs root force = none) :
    scaffoldRoot fs root n force =
      runSteps (scaffoldSteps root n force) fs := by
  simp only [scaffoldRoot, h]

theorem scaffoldRoot_guard_some {fs : FS} {root : Path} {n : String}
    {force : Bool} {e : RunError} (h : rootGuard fs root force = some e) :
    scaffoldRoot fs root n force = (fs, some e) := by
  simp only [scaffoldRoot, h]

theorem rootGuard_dne {fs : FS} {root : Path} (h1 : fs.isDir root = true)
    (h2 : fs.dirNonEmpty root = true) :
    rootGuard fs root false = some RunError.destinationNotEmpty := by
  simp [rootGuard, h1, h2]

theorem rootGuard_not_dne {fs : FS} {root : Path} {force : Bool}
    (h : fs.dirNonEmpty root = false) :
    rootGuard fs root force ≠ some RunError.destinationNotEmpty := by
  cases hd : fs.isDir root with
  | true => simp [rootGuard, hd, h]
  | false =>
    cases hf : fs.isFile root with
    | true => simp [rootGuard, hd, hf]
    | false => simp [rootGuard, hd, hf]

theorem scaffoldSteps_step_cases {root : Path} {n : String} {force : Bool}
    {s : Step} (hs : s ∈ scaffoldSteps root n force) :
    (∃ d ∈ dirsList root, s = dirStep d) ∨
    (∃ pc ∈ baseFiles root n, s = writeStep force pc) := by
  rcases List.mem_append.1 hs with h | h
  · rcases List.mem_map.1 h with ⟨d, hd, rfl⟩
    exact Or.inl ⟨d, hd, rfl⟩
  · rcases List.mem_map.1 h with ⟨pc, hpc, rfl⟩
    exact Or.inr ⟨pc, hpc, rfl⟩

theorem filePhase_isDir_mono (l : List (Path × String)) (force : Bool)
    (fs : FS) {q : Path} (h : fs.isDir q = true) :
    ((runSteps (l.map (writeStep force)) fs).1).isDir q = true := by
  refine runSteps_preserve (fun f => f.isDir q = true) _ fs ?_ h
  intro s hs fs0 h0
  rcases List.mem_map.1 hs with ⟨b, _, rfl⟩
  exact write_file_isDir_mono fs0 b.1 b.2 force h0

theorem filePhase_lookup_frame (l : List (Path × String)) (force : Bool)
    (fs : FS) {q : Path} (hq : ∀ pc ∈ l, q ≠ pc.1) :
    ((runSteps (l.map (writeStep force)) fs).1).lookupFile q =
      fs.lookupFile q := by
  refine runSteps_preserve (fun f => f.lookupFile q = fs.lookupFile q) _ fs
    ?_ rfl
  intro s hs fs0 h0
  rcases List.mem_map.1 hs with ⟨b, hb, rfl⟩
  rw [writeStep, write_file_lookup_frame fs0 b.2 force (hq b hb)]
  exact h0

/-! ### Claims -/

/-- C8: for every project name, two invocations of the render functions with
the same name produce byte-identical rendered content for every artifact.
In the shallow embedding the render functions take only the project name —
they read no ambient state by construction — so equal names give equal
catalog output. -/
theorem C8_render_deterministic (root : Path) (n1 n2 : String) (h : n1 = n2) :
    make_pyproject n1 = make_pyproject n2 ∧
    make_compose n1 = make_compose n2 ∧
    fileSuffixes n1 = fileSuffixes n2 ∧
    baseFiles root n1 = baseFiles root n2 := by
  subst h
  exact ⟨rfl, rfl, rfl, rfl⟩

/-- Witness for C8 at the project name from the spec's example scenario. -/
theorem C8_witness :
    make_pyproject "billing" = make_pyproject "billing" ∧
    make_compose "billing" = make_compose "billing" ∧
    fileSuffixes "billing" = fileSuffixes "billing" ∧
    baseFiles ["out"] "billing" = baseFiles ["out"] "billing" :=
  C8_render_deterministic ["out"] "billing" "billing" rfl

/-- C2: when the destination root (the project path joined with the name)
exists as a directory containing at least one entry and overwrite is false,
the run aborts with `DestinationNotEmpty` (a non-zero exit) and the
filesystem is returned unchanged: nothing is created or modified. -/
theorem C2_root_guard_aborts (fs : FS) (project_path : Path)
    (project_name : String)
    (h1 : fs.isDir (joinName project_path project_name) = true)
    (h2 : fs.dirNonEmpty (joinName project_path project_name) = true) :
    scaffold fs project_path project_name false =
      (fs, some RunError.destinationNotEmpty) := by
  rw [scaffold]
  exact scaffoldRoot_guard_some (rootGuard_dne h1 h2)

/-- Witness for C2: a destination containing one stray file. -/
theorem C2_witness :
    scaffold ⟨[(["w2", "proj", "junk.txt"], "x")], [["w2"], ["w2", "proj"]]⟩
        ["w2"] "proj" false =
      (⟨[(["w2", "proj", "junk.txt"], "x")], [["w2"], ["w2", "proj"]]⟩,
        some RunError.destinationNotEmpty) :=
  C2_root_guard_aborts _ ["w2"] "proj" (by decide) (by decide)

/-- C9: the effective root is the project path joined with the project
name: every declared directory and every artifact lies under that joined
root, and whenever the joined root has no entry — regardless of what else
the project path contains — the run never reports `DestinationNotEmpty`. -/
theorem C9_effective_root (fs : FS) (project_path : Path)
    (project_name : String)
    (hroot : fs.dirNonEmpty (joinName project_path project_name) = false) :
    (∀ d ∈ dirsList (joinName project_path project_name),
      joinName project_path project_name <+: d) ∧
    (∀ pc ∈ baseFiles (joinName project_path project_name) project_name,
      joinName project_path project_name <+: pc.1) ∧
    (scaffold fs project_path project_name false).2 ≠
      some RunError.destinationNotEmpty := by
  refine ⟨?_, ?_, ?_⟩
  · intro d hd
    rcases mem_dirsList hd with ⟨s, _, rfl⟩
    exact ⟨s, rfl⟩
  · intro pc hpc
    rcases mem_baseFiles_path hpc with ⟨t, _, hteq⟩
    rw [hteq]
    exact ⟨t, rfl⟩
  · rw [scaffold]
    cases hg : rootGuard fs (joinName project_path project_name) false with
    | none =>
      rw [scaffoldRoot_guard_none hg]
      refine runSteps_no_dne _ _ ?_
      intro s hs fs0
      rcases scaffoldSteps_step_cases hs with ⟨d, _, rfl⟩ | ⟨pc, _, rfl⟩
      · exact dirStep_no_dne d fs0
      · exact write_file_no_dne fs0 pc.1 pc.2 false
    | some e =>
      rw [scaffoldRoot_guard_some hg]
      intro hcontra
      apply rootGuard_not_dne hroot
      rw [hg]
      simpa using hcontra

/-- Witness for C9: the project path itself is non-empty, but the joined
subdirectory is absent, so the guard does not fire. -/
theorem C9_witness :
    (scaffold ⟨[(["p9", "other"], "x")], [["p9"]]⟩ ["p9"] "proj" false).2 ≠
      some RunError.destinationNotEmpty :=
  (C9_effective_root ⟨[(["p9", "other"], "x")], [["p9"]]⟩ ["p9"] "proj"
    (by decide)).2.2

/-- C10: a file whose path is neither a declared artifact path nor a
directory-marker path is never modified or deleted by a run, even with
overwrite set: only the fixed written-path set is touched. -/
theorem C10_frame (fs : FS) (project_path : Path) (project_name : String)
    (force : Bool) {q : Path}
    (hq : q ∉ writtenPaths (joinName project_path project_name)
      project_name) :
    ((scaffold fs project_path project_name force).1).lookupFile q =
      fs.lookupFile q := by
  rw [scaffold]
  cases hg : rootGuard fs (joinName project_path project_name) force with
  | some e => rw [scaffoldRoot_guard_some hg]
  | none =>
    rw [scaffoldRoot_guard_none hg]
    refine runSteps_preserve (fun f => f.lookupFile q = fs.lookupFile q) _
      fs ?_ rfl
    intro s hs fs0 h0
    rcases scaffoldSteps_step_cases hs with ⟨d, hd, rfl⟩ | ⟨pc, hpc, rfl⟩
    · have hne : q ≠ d ++ [initName] := by
        intro he
        exact hq (List.mem_append.2
          (Or.inl (List.mem_map.2 ⟨d, hd, he.symm⟩)))
      rw [dirStep_lookup_frame fs0 hne]
      exact h0
    · have hne : q ≠ pc.1 := by
        intro he
        exact hq (List.mem_append.2
          (Or.inr (List.mem_map.2 ⟨pc, hpc, he.symm⟩)))
      rw [writeStep, write_file_lookup_frame fs0 pc.2 force hne]
      exact h0

/-- Witness for C10: a stray file next to the generated tree survives a
forced run with its contents intact. -/
theorem C10_witness :
    ((scaffold ⟨[(["w0", "keep.txt"], "keep")], [["w0"]]⟩ ["w0"] "proj"
        true).1).lookupFile ["w0", "keep.txt"] =
      FS.lookupFile ⟨[(["w0", "keep.txt"], "keep")], [["w0"]]⟩
        ["w0", "keep.txt"] :=
  C10_frame _ ["w0"] "proj" true (by decide)

/-- C5 counterexample: the code performs no parameter validation at all.
With an empty project name the run does not fail before I/O with an
`InvalidParameter` condition; it completes successfully and writes files
(here the rendered pyproject appears directly under the project path). -/
theorem C5_counterexample :
    (scaffold FS.empty ["p5"] "" false).2 = none ∧
    (scaffold FS.empty ["p5"] "" false).1.lookupFile
        ["p5", "pyproject.toml"] = some (make_pyproject "") := by
  exact ⟨by decide, by decide⟩

/-- C5 amended: scaffold accepts an empty project name without any check:
`pathlib`'s join drops the empty component, so the run operates directly on
the project path, and on a fresh destination it proceeds to filesystem I/O
and succeeds. -/
theorem C5_amended_no_validation :
    (∀ (fs : FS) (project_path : Path) (force : Bool),
      scaffold fs project_path "" force =
        scaffoldRoot fs project_path "" force) ∧
    (scaffold FS.empty ["p5a"] "" false).2 = none ∧
    (scaffold FS.empty ["p5a"] "" false).1.files ≠ [] := by
  refine ⟨?_, by decide, by decide⟩
  intro fs project_path force
  rw [scaffold, joinName]
  simp

/-- C1 counterexample: after a first successful run on an empty
destination, a second run with identical parameters and overwrite=false
does not complete without error and does not skip the items — the root
guard fires and the run aborts with `DestinationNotEmpty`. -/
theorem C1_counterexample :
    (scaffold FS.empty ["tmp"] "demo" false).2 = none ∧
    (scaffold (scaffold FS.empty ["tmp"] "demo" false).1 ["tmp"] "demo"
        false).2 = some RunError.destinationNotEmpty :=
  ⟨by decide, by decide⟩

/-- C1 amended: re-running scaffold with identical parameters and
overwrite=false against the tree produced by a first successful run aborts
with `DestinationNotEmpty` (non-zero exit) before any mutation — the
filesystem stays exactly the state after the first run, and no item is
skipped or written. -/
theorem C1_amended_second_run_aborts (fs : FS) (project_path : Path)
    (project_name : String)
    (h : (scaffold fs project_path project_name false).2 = none) :
    scaffold (scaffold fs project_path project_name false).1 project_path
        project_name false =
      ((scaffold fs project_path project_name false).1,
        some RunError.destinationNotEmpty) := by
  simp only [scaffold] at h ⊢
  cases hg : rootGuard fs (joinName project_path project_name) false with
  | some e =>
    rw [scaffoldRoot_guard_some hg] at h
    simp at h
  | none =>
    rw [scaffoldRoot_guard_none hg] at h ⊢
    rcases hr : runSteps (scaffoldSteps (joinName project_path project_name)
        project_name false) fs with ⟨fs1, o⟩
    rw [hr] at h
    have ho : o = none := h
    subst ho
    have hsteps : scaffoldSteps (joinName project_path project_name)
        project_name false =
        (dirsList (joinName project_path project_name)).map dirStep ++
          (baseFiles (joinName project_path project_name)
            project_name).map (writeStep false) := rfl
    rw [hsteps] at hr
    rcases runSteps_success_append hr with ⟨fsm, hdirrun, hfilerun⟩
    have hdSrc : joinName project_path project_name ++ ["src"] ∈
        dirsList (joinName project_path project_name) := by
      rw [dirsList]
      exact List.mem_map_of_mem _ (by simp [dirSuffixes])
    have hsm : fsm.isDir (joinName project_path project_name ++ ["src"]) =
        true :=
      dirPhase_dirs _ hdirrun _ hdSrc _ (self_mem_pathPrefixes (by simp))
    have h1 : fs1.isDir (joinName project_path project_name ++ ["src"]) =
        true := by
      have hmono := filePhase_isDir_mono
        (baseFiles (joinName project_path project_name) project_name) false
        fsm hsm
      rw [hfilerun] at hmono
      exact hmono
    have hrd : fs1.isDir (joinName project_path project_name) = true := by
      by_cases hnil : joinName project_path project_name = []
      · rw [hnil]
        simp [FS.isDir]
      · have hmem : joinName project_path project_name ∈
            pathPrefixes (joinName project_path project_name ++ ["src"]) := by
          rw [pathPrefixes_append]
          exact List.mem_append.2 (Or.inl (self_mem_pathPrefixes hnil))
        have hsm2 : fsm.isDir (joinName project_path project_name) = true :=
          dirPhase_dirs _ hdirrun _ hdSrc _ hmem
        have hmono := filePhase_isDir_mono
          (baseFiles (joinName project_path project_name) project_name) false
          fsm hsm2
        rw [hfilerun] at hmono
        exact hmono
    have hne : fs1.dirNonEmpty (joinName project_path project_name) =
        true := by
      rw [FS.dirNonEmpty]
      refine Bool.or_eq_true_iff.2 (Or.inr ?_)
      refine List.any_eq_true.2
        ⟨joinName project_path project_name ++ ["src"], ?_, ?_⟩
      · rcases isDir_iff.1 h1 with habs | hmem
        · exact absurd habs (by simp)
        · exact hmem
      · exact strictUnder_append _ (by simp)
    show scaffoldRoot fs1 (joinName project_path project_name) project_name
        false = (fs1, some RunError.destinationNotEmpty)
    exact scaffoldRoot_guard_some (rootGuard_dne hrd hne)

/-- Witness for C1 amended: concrete second run over a freshly generated
tree. -/
theorem C1_amended_witness :
    scaffold (scaffold FS.empty ["w1"] "proj" false).1 ["w1"] "proj" false =
      ((scaffold FS.empty ["w1"] "proj" false).1,
        some RunError.destinationNotEmpty) :=
  C1_amended_second_run_aborts FS.empty ["w1"] "proj" (by decide)

/-- C3 counterexample: a directory squatting on the first artifact path
makes its `write_text` raise with overwrite=true.  The run does not
continue: it stops with the unhandled exception and the very next artifact
(`requirements.txt`) is never attempted, contradicting the claimed
partial-success semantics (there is no Failed record at all). -/
theorem C3_counterexample :
    (scaffold ⟨[], [["t3"], ["t3", "x"], ["t3", "x", "pyproject.toml"]]⟩
        ["t3"] "x" true).2 = some RunError.ioError ∧
    ((scaffold ⟨[], [["t3"], ["t3", "x"], ["t3", "x", "pyproject.toml"]]⟩
        ["t3"] "x" true).1).lookupFile ["t3", "x", "requirements.txt"] =
      none :=
  ⟨by decide, by decide⟩

/-- C3 amended: when writing one artifact fails with an I/O error, the
unhandled exception aborts the run at that artifact: steps already executed
keep their effects, but the failing artifact is not written and no later
step is attempted (and nothing is recorded as Failed — there is no
per-item report). -/
theorem C3_amended_failure_aborts_run (pre : List Step) (s : Step)
    (post : List Step) {fs fsm fs2 : FS} {e : RunError}
    (hpre : runSteps pre fs = (fsm, none)) (hs : s fsm = (fs2, some e)) :
    runSteps (pre ++ s :: post) fs = (fs2, some e) :=
  runSteps_failfast pre s post hpre hs

/-- Witness for C3 amended: a two-artifact run whose first write fails. -/
theorem C3_amended_witness :
    runSteps
      [writeStep true (["t3w", "x", "pyproject.toml"], make_pyproject "x"),
        writeStep true (["t3w", "x", "requirements.txt"], make_requirements)]
      ⟨[], [["t3w"], ["t3w", "x"], ["t3w", "x", "pyproject.toml"]]⟩ =
      ((writeStep true (["t3w", "x", "pyproject.toml"], make_pyproject "x")
          ⟨[], [["t3w"], ["t3w", "x"], ["t3w", "x", "pyproject.toml"]]⟩).1,
        some RunError.ioError) :=
  C3_amended_failure_aborts_run []
    (writeStep true (["t3w", "x", "pyproject.toml"], make_pyproject "x"))
    [writeStep true (["t3w", "x", "requirements.txt"], make_requirements)]
    rfl (by decide)

/-- C4 counterexample: with the overwrite flag set, an existing stale
directory marker is not rewritten with the current marker content — the
run succeeds but the marker keeps its old contents, because `scaffold`
calls `write_init(d)` without forwarding the force flag. -/
theorem C4_counterexample :
    (scaffold ⟨[(["t4", "x", "src", "__init__.py"], "stale")],
        [["t4"], ["t4", "x"], ["t4", "x", "src"]]⟩ ["t4"] "x" true).2 =
      none ∧
    ((scaffold ⟨[(["t4", "x", "src", "__init__.py"], "stale")],
        [["t4"], ["t4", "x"], ["t4", "x", "src"]]⟩ ["t4"] "x"
        true).1).lookupFile ["t4", "x", "src", "__init__.py"] =
      some "stale" ∧
    "stale" ≠ initContent :=
  ⟨by decide, by decide, by decide⟩

/-- C4 amended: an existing directory marker is left untouched regardless
of the overwrite flag — scaffold invokes marker creation without the flag,
so a pre-existing marker's content survives every run unchanged. -/
theorem C4_amended_markers_never_rewritten (fs : FS) (project_path : Path)
    (project_name : String) (force : Bool) {d : Path}
    (hd : d ∈ dirsList (joinName project_path project_name))
    (hex : fs.pathExists (d ++ [initName]) = true) :
    ((scaffold fs project_path project_name force).1).lookupFile
        (d ++ [initName]) = fs.lookupFile (d ++ [initName]) := by
  rw [scaffold]
  cases hg : rootGuard fs (joinName project_path project_name) force with
  | some e => rw [scaffoldRoot_guard_some hg]
  | none =>
    rw [scaffoldRoot_guard_none hg]
    have hstep : ∀ s ∈ scaffoldSteps (joinName project_path project_name)
        project_name force, ∀ fs0 : FS,
        (fs0.pathExists (d ++ [initName]) = true ∧
          fs0.lookupFile (d ++ [initName]) =
            fs.lookupFile (d ++ [initName])) →
        ((s fs0).1).pathExists (d ++ [initName]) = true ∧
          ((s fs0).1).lookupFile (d ++ [initName]) =
            fs.lookupFile (d ++ [initName]) := by
      intro s hs fs0 h0
      rcases scaffoldSteps_step_cases hs with ⟨d2, hd2, rfl⟩ | ⟨pc, hpc, rfl⟩
      · by_cases hdd : d2 = d
        · subst hdd
          exact ⟨dirStep_pathExists_mono fs0 d2 h0.1,
            (dirStep_marker_keep fs0 h0.1).trans h0.2⟩
        · have hne : d ++ [initName] ≠ d2 ++ [initName] :=
            markers_ne_of_ne (fun he => hdd he.symm)
          exact ⟨dirStep_pathExists_mono fs0 d2 h0.1,
            (dirStep_lookup_frame fs0 hne).trans h0.2⟩
      · have hne : d ++ [initName] ≠ pc.1 := marker_ne_artifact hd hpc
        refine ⟨write_file_pathExists_mono fs0 pc.1 pc.2 force h0.1, ?_⟩
        rw [writeStep, write_file_lookup_frame fs0 pc.2 force hne]
        exact h0.2
    exact (runSteps_preserve
      (fun f => f.pathExists (d ++ [initName]) = true ∧
        f.lookupFile (d ++ [initName]) = fs.lookupFile (d ++ [initName]))
      (scaffoldSteps (joinName project_path project_name) project_name force)
      fs hstep ⟨hex, rfl⟩).2

/-- Witness for C4 amended: a stale marker under a forced run. -/
theorem C4_amended_witness :
    ((scaffold ⟨[(["w4", "x", "src", "__init__.py"], "old")],
        [["w4"], ["w4", "x"], ["w4", "x", "src"]]⟩ ["w4"] "x"
        true).1).lookupFile (["w4", "x", "src"] ++ [initName]) =
      FS.lookupFile ⟨[(["w4", "x", "src", "__init__.py"], "old")],
        [["w4"], ["w4", "x"], ["w4", "x", "src"]]⟩
        (["w4", "x", "src"] ++ [initName]) :=
  C4_amended_markers_never_rewritten _ ["w4"] "x" true (by decide) (by decide)

/-- C6: a run with overwrite=true that completes rewrites every catalog
artifact: afterwards each artifact's content equals the current render
output for the project name, regardless of what was there before. -/
theorem C6_overwrite_rewrites_all (fs : FS) (project_path : Path)
    (project_name : String)
    (h : (scaffold fs project_path project_name true).2 = none) :
    ∀ pc ∈ baseFiles (joinName project_path project_name) project_name,
      ((scaffold fs project_path project_name true).1).lookupFile pc.1 =
        some pc.2 := by
  rw [scaffold] at h ⊢
  cases hg : rootGuard fs (joinName project_path project_name) true with
  | some e =>
    rw [scaffoldRoot_guard_some hg] at h
    simp at h
  | none =>
    rw [scaffoldRoot_guard_none hg] at h ⊢
    rcases hr : runSteps (scaffoldSteps (joinName project_path project_name)
        project_name true) fs with ⟨fs1, o⟩
    rw [hr] at h
    have ho : o = none := h
    subst ho
    have hsteps : scaffoldSteps (joinName project_path project_name)
        project_name true =
        (dirsList (joinName project_path project_name)).map dirStep ++
          (baseFiles (joinName project_path project_name)
            project_name).map (writeStep true) := rfl
    rw [hsteps] at hr
    rcases runSteps_success_append hr with ⟨fsm, _, hfilerun⟩
    exact filePhase_content _ (artifact_paths_pairwise _ _) hfilerun

/-- Witness for C6: a pre-existing pyproject with different content is
rewritten to the render output. -/
theorem C6_witness :
    ((scaffold ⟨[(["t6", "x", "pyproject.toml"], "OLD")],
        [["t6"], ["t6", "x"]]⟩ ["t6"] "x" true).1).lookupFile
        (["t6", "x"] ++ ["pyproject.toml"]) = some (make_pyproject "x") :=
  C6_overwrite_rewrites_all _ ["t6"] "x" (by decide)
    (["t6", "x"] ++ ["pyproject.toml"], make_pyproject "x") (by decide)

/-- C7: after a run on a usable (fresh) destination completes, every
declared directory exists and contains its marker file, and every declared
artifact exists at its declared relative path under the root. -/
theorem C7_completeness (fs : FS) (project_path : Path)
    (project_name : String) (force : Bool)
    (hclean : fs.cleanUnder (joinName project_path project_name) = true)
    (h : (scaffold fs project_path project_name force).2 = none) :
    (∀ d ∈ dirsList (joinName project_path project_name),
      ((scaffold fs project_path project_name force).1).isDir d = true ∧
      ((scaffold fs project_path project_name force).1).isFile
        (d ++ [initName]) = true) ∧
    ∀ pc ∈ baseFiles (joinName project_path project_name) project_name,
      ((scaffold fs project_path project_name force).1).isFile pc.1 =
        true := by
  rw [scaffold] at h ⊢
  cases hg : rootGuard fs (joinName project_path project_name) force with
  | some e =>
    rw [scaffoldRoot_guard_some hg] at h
    simp at h
  | none =>
    rw [scaffoldRoot_guard_none hg] at h ⊢
    rcases hr : runSteps (scaffoldSteps (joinName project_path project_name)
        project_name force) fs with ⟨fs1, o⟩
    rw [hr] at h
    have ho : o = none := h
    subst ho
    have hsteps : scaffoldSteps (joinName project_path project_name)
        project_name force =
        (dirsList (joinName project_path project_name)).map dirStep ++
          (baseFiles (joinName project_path project_name)
            project_name).map (writeStep force) := rfl
    rw [hsteps] at hr
    rcases runSteps_success_append hr with ⟨fsm, hdirrun, hfilerun⟩
    have habs0 : ∀ d ∈ dirsList (joinName project_path project_name),
        fs.pathExists (d ++ [initName]) = false := by
      intro d hd
      rcases mem_dirsList hd with ⟨s, hs, rfl⟩
      rw [List.append_assoc]
      exact cleanUnder_pathExists hclean (strictUnder_append _ (by simp))
    have hmarkers : ∀ d ∈ dirsList (joinName project_path project_name),
        fsm.lookupFile (d ++ [initName]) = some initContent :=
      dirPhase_markers _ (dirsList_pairwise_ne _)
        (fun d hd d2 hd2 => marker_not_in_dirsList_prefixes hd hd2)
        habs0 hdirrun
    have habsf : ∀ pc ∈ baseFiles (joinName project_path project_name)
        project_name, fsm.pathExists pc.1 = false := by
      intro pc hpc
      have habs1 : fs.pathExists pc.1 = false := by
        rcases mem_baseFiles_path hpc with ⟨t, ht, hteq⟩
        rw [hteq]
        exact cleanUnder_pathExists hclean
          (strictUnder_append _ (filePathSuffixes_ne_nil t ht))
      have hfile0 : fs.lookupFile pc.1 = none := by
        cases hx : fs.lookupFile pc.1 with
        | none => rfl
        | some c =>
          exfalso
          have hisf : fs.isFile pc.1 = true := by
            rw [FS.isFile, hx]
            rfl
          simp [FS.pathExists, hisf] at habs1
      have hfilem : fsm.lookupFile pc.1 = none := by
        have hfr := dirPhase_frame
          (dirsList (joinName project_path project_name)) fs
          (fun d hd => artifact_ne_marker hpc hd)
        rw [hdirrun] at hfr
        exact hfr.trans hfile0
      have hdirm : fsm.isDir pc.1 = false := by
        cases hx : fsm.isDir pc.1 with
        | false => rfl
        | true =>
          exfalso
          have hb := dirPhase_isDir_bound
            (dirsList (joinName project_path project_name)) fs (q := pc.1)
          rw [hdirrun] at hb
          rcases hb hx with h1 | ⟨d, hd, hq⟩
          · simp [FS.pathExists, h1] at habs1
          · exact artifact_not_in_dirsList_prefixes hpc hd hq
      rw [FS.pathExists, FS.isFile, hfilem, hdirm]
      rfl
    refine ⟨?_, ?_⟩
    · intro d hd
      constructor
      · have hdm : fsm.isDir d = true :=
          dirPhase_dirs _ hdirrun d hd d
            (self_mem_pathPrefixes (dirsList_ne_nil hd))
        have hmono := filePhase_isDir_mono
          (baseFiles (joinName project_path project_name) project_name)
          force fsm hdm
        rw [hfilerun] at hmono
        exact hmono
      · have hfr := filePhase_lookup_frame
          (baseFiles (joinName project_path project_name) project_name)
          force fsm (q := d ++ [initName])
          (fun pc hpc => marker_ne_artifact hd hpc)
        rw [hfilerun] at hfr
        have hlk : fs1.lookupFile (d ++ [initName]) = some initContent :=
          hfr.trans (hmarkers d hd)
        rw [FS.isFile, hlk]
        rfl
    · exact filePhase_exists
        (baseFiles (joinName project_path project_name) project_name) force
        (artifact_paths_pairwise _ _)
        (fun a ha b hb => artifact_not_in_parent_prefixes ha hb)
        habsf hfilerun

/-- Witness for C7: a fresh run creates the src directory, its marker,
and the pyproject artifact. -/
theorem C7_witness :
    ((scaffold FS.empty ["w7"] "proj" false).1).isDir
        (joinName ["w7"] "proj" ++ ["src"]) = true ∧
    ((scaffold FS.empty ["w7"] "proj" false).1).isFile
        ((joinName ["w7"] "proj" ++ ["src"]) ++ [initName]) = true ∧
    ((scaffold FS.empty ["w7"] "proj" false).1).isFile
        (joinName ["w7"] "proj" ++ ["pyproject.toml"]) = true := by
  have hC := C7_completeness FS.empty ["w7"] "proj" false (by decide)
    (by decide)
  exact ⟨(hC.1 _ (by decide)).1, (hC.1 _ (by decide)).2,
    hC.2 (joinName ["w7"] "proj" ++ ["pyproject.toml"], make_pyproject "proj")
      (by decide)⟩

end Scaffolder
